import Mathlib

/-!
The program touchscreen-transform: the layout loop and the matrix builder of `transform.c`

A shallow embedding of `src/transform.c`.

* C `int` values are integers of `ℤ` in the range `INT_MIN .. INT_MAX` of a
  32-bit `int`.  The additions `cwidth += ..` and `x_org += ..` of the layout
  loop are `int_add`: the sum wrapped to 32 bits in two's complement, which is
  what the compiled program computes when the sum leaves the range (the C
  standard leaves signed overflow undefined).  The numbers read by `sscanf` and
  `atoi` are not bounded.
* C `float` values are elements of a number type `F`.  The matrix code is
  written once for every `F` that has `0`, `1`, `+`, unary `-`, `/` and a
  conversion from `int`; the statements about the shape of the matrix hold for
  every such `F`, the statements about values read the arithmetic as exact
  (`F = ℚ`).
* `float m[9]` is a list of nine entries, `m[row * 3 + col]`.
* `screens[MAX_SCREENS]` is a list of slots; the first `nr_screens` slots were
  written by the option loop, the others hold whatever the stack held.
* The option loop runs over the values that `getopt_long` returns one after the
  other.  The libc functions `atoi`, `sscanf` (format `%dx%d`) and `strcasecmp`
  are written out as the C standard describes them, in the C locale.
-/

namespace Transform

/-! ## Constants and data -/

/-- The macro `MAX_SCREENS`. -/
abbrev MAX_SCREENS : Nat := 4

/-- The macro `MAX_ROTATIONS`. -/
abbrev MAX_ROTATIONS : Nat := 4

/-- The struct `Matrix`: `float m[9]`, row-major. -/
structure Matrix (F : Type) where
  m : List F
deriving DecidableEq, Repr

/-- The enumerator `RR_Rotate_0` of `enum rotations_t` ("normal"). -/
abbrev RR_Rotate_0 : Int := 0

/-- The enumerator `RR_Rotate_90` of `enum rotations_t` ("left"). -/
abbrev RR_Rotate_90 : Int := 1

/-- The enumerator `RR_Rotate_180` of `enum rotations_t` ("inverted"). -/
abbrev RR_Rotate_180 : Int := 2

/-- The enumerator `RR_Rotate_270` of `enum rotations_t` ("right"). -/
abbrev RR_Rotate_270 : Int := 3

/-- One element of the anonymous struct array `screens` of `main`. -/
structure Screen where
  width : Int
  height : Int
  rotation : Int
deriving DecidableEq, Repr

/-! ## The matrix builder -/

section MatrixBuilder

variable {F : Type} [Zero F] [One F] [Add F] [Neg F] [Div F] [IntCast F]

/-- The function `matrix_set`: `m->m[row * 3 + col] = val`. -/
def matrix_set (m : Matrix F) (row col : Nat) (val : F) : Matrix F :=
  ⟨m.m.set (row * 3 + col) val⟩

/-- The function `matrix_set_unity`: `memset` clears all nine entries, whatever
they held, then the diagonal is set to `1`. -/
def matrix_set_unity (_m : Matrix F) : Matrix F :=
  let m : Matrix F := ⟨List.replicate 9 0⟩
  let m := matrix_set m 0 0 1
  let m := matrix_set m 1 1 1
  matrix_set m 2 2 1

/-- The function `matrix_s4`; `main_diag` is a C truth value (non-zero is true). -/
def matrix_s4 (m : Matrix F) (x02 x12 d1 d2 : F) (main_diag : Int) : Matrix F :=
  let m := matrix_set m 0 2 x02
  let m := matrix_set m 1 2 x12
  if main_diag ≠ 0 then
    let m := matrix_set m 0 0 d1
    matrix_set m 1 1 d2
  else
    let m := matrix_set m 0 0 0
    let m := matrix_set m 1 1 0
    let m := matrix_set m 0 1 d1
    matrix_set m 1 0 d2

/-- The function `set_transformation_matrix`.  The `switch` has no `default:`,
so a rotation outside the four enumerators leaves the unity matrix. -/
def set_transformation_matrix (width height : Int) (m : Matrix F)
    (offset_x offset_y screen_width screen_height rotation : Int) : Matrix F :=
  /- offset -/
  let x : F := (offset_x : F) / (width : F)
  let y : F := (offset_y : F) / (height : F)
  /- mapping -/
  let w : F := (screen_width : F) / (width : F)
  let h : F := (screen_height : F) / (height : F)
  let m := matrix_set_unity m
  if rotation = RR_Rotate_0 then matrix_s4 m x y w h 1
  else if rotation = RR_Rotate_90 then matrix_s4 m (x + w) y (-w) h 0
  else if rotation = RR_Rotate_270 then matrix_s4 m x (y + h) w (-h) 0
  else if rotation = RR_Rotate_180 then matrix_s4 m (x + w) (y + h) (-w) (-h) 1
  else m

end MatrixBuilder

/-! ## The layout loop and the tail of `main` -/

/-- The macro `INT_MAX` of `<limits.h>` for a 32-bit `int`. -/
abbrev INT_MAX : Int := 2147483647

/-- The macro `INT_MIN` of `<limits.h>` for a 32-bit `int`. -/
abbrev INT_MIN : Int := -2147483648

/-- The integer is a value of the C type `int`. -/
def is_int (n : Int) : Prop := INT_MIN ≤ n ∧ n ≤ INT_MAX

instance (n : Int) : Decidable (is_int n) := by
  unfold is_int; infer_instance

/-- The value of type `int` that is congruent to `n` modulo `2^32`. -/
def wrap_int (n : Int) : Int := (n + 2147483648) % 4294967296 - 2147483648

/-- The sum `a + b` of two `int` values as the program computes it: wrapped to
32 bits when it leaves the range of `int`.  Integers that are not values of
`int` are no operands of the program; for them the sum is left as it is. -/
def int_add (a b : Int) : Int :=
  if is_int a ∧ is_int b then wrap_int (a + b) else a + b

/-- The locals `cwidth`, `cheight`, `x_org`, `y_org` of `main`. -/
structure Layout where
  cwidth : Int
  cheight : Int
  x_org : Int
  y_org : Int
deriving DecidableEq, Repr

/-- One pass through the body of the layout `for` loop of `main`, at index `i`
with `s = screens[i]`. -/
def layout_step (ts_index : Int) (st : Layout) (i : Nat) (s : Screen) : Layout :=
  if s.rotation = RR_Rotate_0 ∨ s.rotation = RR_Rotate_180 then
    { st with
      cwidth := int_add st.cwidth s.width
      x_org := if (i : Int) < ts_index then int_add st.x_org s.width else st.x_org
      cheight := if st.cheight < s.height then s.height else st.cheight }
  else if s.rotation = RR_Rotate_90 ∨ s.rotation = RR_Rotate_270 then
    { st with
      cwidth := int_add st.cwidth s.height
      x_org := if (i : Int) < ts_index then int_add st.x_org s.width else st.x_org
      cheight := if st.cheight < s.width then s.width else st.cheight }
  else st

/-- The layout loop from index `i` on, over the slots still to visit. -/
def layout_from (ts_index : Int) : Nat → List Screen → Layout → Layout
  | _, [], st => st
  | i, s :: rest, st => layout_from ts_index (i + 1) rest (layout_step ts_index st i s)

/-- The layout loop of `main`: `cwidth = 0, cheight = 0` from the declarations,
`x_org = 0; y_org = 0;` and then `for (i = 0; i < nr_screens; i++)`. -/
def layout_loop (screens : List Screen) (nr_screens : Nat) (ts_index : Int) : Layout :=
  layout_from ts_index 0 (screens.take nr_screens) ⟨0, 0, 0, 0⟩

/-- The `switch (screens[ts_index].rotation)` of `main` that picks `s_width` and
`s_height`.  It has no `default:`; the arguments `s_width`, `s_height` are the
values the two uninitialised locals hold before it. -/
def effective_size (t : Screen) (s_width s_height : Int) : Int × Int :=
  if t.rotation = RR_Rotate_0 ∨ t.rotation = RR_Rotate_180 then (t.width, t.height)
  else if t.rotation = RR_Rotate_90 ∨ t.rotation = RR_Rotate_270 then (t.height, t.width)
  else (s_width, s_height)

/-- How a run of `main` ends. -/
inductive Outcome (F : Type) where
  /-- `usage(argv[0]); return 0;` -/
  | usage : Outcome F
  /-- The nine entries of the matrix are printed, then `return 0;` -/
  | printed (m : Matrix F) : Outcome F
  /-- A `return 1;` -/
  | failure : Outcome F
  /-- A read outside the array `screens[MAX_SCREENS]`. -/
  | out_of_bounds : Outcome F
deriving DecidableEq, Repr

/-- The read `screens[ts_index]`. -/
def screen_at (screens : List Screen) (ts_index : Int) : Option Screen :=
  if 0 ≤ ts_index then screens[ts_index.toNat]? else none

/-- The part of `main` after the option loop: the `nr_screens == 0` test, the
layout loop, the choice of the effective size, and the call of
`set_transformation_matrix`.  `s_width`, `s_height` and `m` are the initial
contents of the uninitialised locals of the same names. -/
def main_compute {F : Type} [Zero F] [One F] [Add F] [Neg F] [Div F] [IntCast F]
    (screens : List Screen) (nr_screens : Nat) (ts_index : Int)
    (s_width s_height : Int) (m : Matrix F) : Outcome F :=
  if nr_screens = 0 then Outcome.usage
  else
    let st := layout_loop screens nr_screens ts_index
    match screen_at screens ts_index with
    | none => Outcome.out_of_bounds
    | some t =>
      let sz := effective_size t s_width s_height
      Outcome.printed
        (set_transformation_matrix st.cwidth st.cheight m st.x_org st.y_org sz.1 sz.2 t.rotation)

/-! ## The option loop of `main` -/

/-- The table `rotations`. -/
def rotations : List String := ["normal", "left", "inverted", "right"]

/-- The libc function `strcasecmp` in the C locale: `0` when the two strings are
equal after mapping `A`..`Z` to `a`..`z`, non-zero otherwise.  The program only
tests the result against `0`, so every non-zero result is represented by `1`. -/
def strcasecmp (s1 s2 : String) : Int :=
  if s1.toList.map Char.toLower = s2.toList.map Char.toLower then 0 else 1

/-- The `for` loop of `rotation_index` from index `i` on, over the names still
to compare. -/
def rotation_index_from (rot_name : String) : Nat → List String → Int
  | _, [] => -1
  | i, name :: rest =>
    if strcasecmp rot_name name = 0 then (i : Int)
    else rotation_index_from rot_name (i + 1) rest

/-- The function `rotation_index` (the trace it writes to `stderr` is left out). -/
def rotation_index (rot_name : String) : Int :=
  rotation_index_from rot_name 0 (rotations.take MAX_ROTATIONS)

/-- The libc predicate `isspace` in the C locale: space, `\t`, `\n`, `\v`, `\f`, `\r`. -/
def isspace (c : Char) : Bool :=
  c.toNat = 32 || (9 ≤ c.toNat && c.toNat ≤ 13)

/-- The decimal digits at the head of the input, accumulated onto `acc`, and
the input left after them. -/
def scan_digits : List Char → Nat → Nat × List Char
  | [], acc => (acc, [])
  | c :: rest, acc =>
    if c.isDigit then scan_digits rest (acc * 10 + (c.toNat - 48)) else (acc, c :: rest)

/-- A conversion `%d` of `sscanf`, which is also the number syntax of `atoi`:
white space is skipped, then an optional sign and at least one decimal digit
are read.  The result is the integer and the input left, or `none` when no
digit is found.  The value is an integer of `ℤ`. -/
def scan_int (input : List Char) : Option (Int × List Char) :=
  let s := input.dropWhile isspace
  let signed : Bool × List Char :=
    match s with
    | '-' :: t => (true, t)
    | '+' :: t => (false, t)
    | _ => (false, s)
  match signed.2 with
  | [] => none
  | c :: _ =>
    if c.isDigit then
      let r := scan_digits signed.2 0
      some (if signed.1 then -(r.1 : Int) else (r.1 : Int), r.2)
    else none

/-- The libc function `atoi`: the number at the head of the string, `0` when
there is none. -/
def atoi (str : String) : Int :=
  match scan_int str.toList with
  | some (n, _) => n
  | none => 0

/-- What a call `sscanf(str, "%dx%d", &a, &b)` does: its return value and the
values it stores through the two pointers. -/
structure Scanned where
  ret : Int
  first : Option Int
  second : Option Int
deriving DecidableEq, Repr

/-- The libc call `sscanf(str, "%dx%d", ..)`: a `%d`, the letter `x`, a `%d`;
whatever follows the second number is not looked at.  The return value is the
number of conversions stored, or `EOF = -1` when the input ends before the
first one. -/
def sscanf_dxd (str : String) : Scanned :=
  match scan_int str.toList with
  | none => if (str.toList.dropWhile isspace).isEmpty then ⟨-1, none, none⟩ else ⟨0, none, none⟩
  | some (a, rest) =>
    match rest with
    | 'x' :: rest2 =>
      match scan_int rest2 with
      | some (b, _) => ⟨2, some a, some b⟩
      | none => ⟨1, some a, none⟩
    | _ => ⟨1, some a, none⟩

/-- One value returned by `getopt_long` with the option string `"hi:r:R:"`,
together with `optarg`. -/
inductive Opt where
  /-- `-h`, `--help` -/
  | h : Opt
  /-- `-i index` -/
  | i (optarg : String) : Opt
  /-- `-r NxM`, `--resolution NxM` -/
  | r (optarg : String) : Opt
  /-- `-R name`, `--rotation name` -/
  | R (optarg : String) : Opt
  /-- Any other value: `'?'` for an unknown option or a missing argument, and
  `'t'`, the value the table `opts` gives to `--index`. -/
  | other : Opt
deriving DecidableEq, Repr

/-- The locals of `main` that the option loop reads and writes. -/
structure Locals where
  ts_index_set : Int
  ts_index : Int
  nr_screens : Nat
  screens : List Screen
deriving DecidableEq, Repr

/-- How the option loop leaves `main` early. -/
inductive Exit where
  /-- `usage(argv[0]); return 0;` -/
  | usage : Exit
  /-- A `return 1;`, with the text written to `stderr` just before it. -/
  | failure (message : String) : Exit
  /-- A write outside the array `screens[MAX_SCREENS]`. -/
  | out_of_bounds : Exit
deriving DecidableEq, Repr

/-- The body of the `switch (opt)` in the option loop of `main`. -/
def option_step (st : Locals) : Opt → Except Exit Locals
  | Opt.h => Except.error Exit.usage
  | Opt.i optarg =>
    if st.ts_index_set ≠ 0 then Except.error (Exit.failure "Duplicate -i option\n")
    else Except.ok { st with ts_index := atoi optarg }
  | Opt.r optarg =>
    if MAX_SCREENS ≤ st.nr_screens then Except.error (Exit.failure "Too many -r options\n")
    else
      match st.screens[st.nr_screens]? with
      | none => Except.error Exit.out_of_bounds
      | some s =>
        let sc := sscanf_dxd optarg
        if sc.ret ≠ 2 then
          Except.error (Exit.failure ("Invalid -r argument: " ++ optarg ++ "\n"))
        else
          Except.ok { st with
            screens := st.screens.set st.nr_screens
              ⟨sc.first.getD s.width, sc.second.getD s.height, 0⟩
            nr_screens := st.nr_screens + 1 }
  | Opt.R optarg =>
    let rot_index : Int := (st.nr_screens : Int) - 1
    if rot_index < 0 then Except.error (Exit.failure "Option -R cannot appear before -r\n")
    else if (MAX_SCREENS : Int) ≤ rot_index then
      Except.error (Exit.failure "Too many -r options\n")
    else
      match st.screens[rot_index.toNat]? with
      | none => Except.error Exit.out_of_bounds
      | some s =>
        if rotation_index optarg = -1 then
          Except.error (Exit.failure ("Invalid rotation specification: " ++ optarg ++ "\n"))
        else
          Except.ok { st with
            screens := st.screens.set rot_index.toNat { s with rotation := rotation_index optarg } }
  | Opt.other => Except.error (Exit.failure "")

/-- The option loop of `main`, over the values `getopt_long` returns one after
the other; the end of the list is the value `-1`. -/
def option_loop : List Opt → Locals → Except Exit Locals
  | [], st => Except.ok st
  | opt :: rest, st =>
    match option_step st opt with
    | Except.error e => Except.error e
    | Except.ok st1 => option_loop rest st1

/-- The exit of `main` that an early exit of the option loop is. -/
def Exit.toOutcome {F : Type} : Exit → Outcome F
  | Exit.usage => Outcome.usage
  | Exit.failure _ => Outcome.failure
  | Exit.out_of_bounds => Outcome.out_of_bounds

/-- The function `main`: the option loop, started with `ts_index_set = 0`,
`ts_index = 0`, `nr_screens = 0`, and then `main_compute`.  `screens`,
`s_width`, `s_height` and `m` are the initial contents of the uninitialised
locals of the same names. -/
def main {F : Type} [Zero F] [One F] [Add F] [Neg F] [Div F] [IntCast F]
    (opts : List Opt) (screens : List Screen) (s_width s_height : Int) (m : Matrix F) :
    Outcome F :=
  match option_loop opts ⟨0, 0, 0, screens⟩ with
  | Except.error e => e.toOutcome
  | Except.ok st => main_compute st.screens st.nr_screens st.ts_index s_width s_height m

/-! ## Vocabulary of the statements -/

/-- The rotation value is one of the four enumerators. -/
def valid_rotation (r : Int) : Prop :=
  r = RR_Rotate_0 ∨ r = RR_Rotate_90 ∨ r = RR_Rotate_180 ∨ r = RR_Rotate_270

instance (r : Int) : Decidable (valid_rotation r) := by
  unfold valid_rotation; infer_instance

/-- Rotation-aware width of a screen: `width` for Normal/Inverted, `height`
for Left/Right. -/
def canvas_width (s : Screen) : Int :=
  if s.rotation = RR_Rotate_90 ∨ s.rotation = RR_Rotate_270 then s.height else s.width

/-- Rotation-aware height of a screen: `height` for Normal/Inverted, `width`
for Left/Right. -/
def canvas_height (s : Screen) : Int :=
  if s.rotation = RR_Rotate_90 ∨ s.rotation = RR_Rotate_270 then s.width else s.height

/-- The affine map of a 3×3 matrix in homogeneous coordinates, applied to the
point `(u, v)`: rows 0 and 1 of `m · (u, v, 1)`. -/
def apply_affine (m : Matrix ℚ) (u v : ℚ) : ℚ × ℚ :=
  (m.m.getD 0 0 * u + m.m.getD 1 0 * v + m.m.getD 2 0,
   m.m.getD 3 0 * u + m.m.getD 4 0 * v + m.m.getD 5 0)

/-- The determinant `m[0][0]*m[1][1] - m[0][1]*m[1][0]` of the 2×2 linear part of
a matrix. -/
def linear_det (m : Matrix ℚ) : ℚ :=
  m.m.getD 0 0 * m.m.getD 4 0 - m.m.getD 1 0 * m.m.getD 3 0

/-- The number of `-r` options in an option sequence. -/
def count_r : List Opt → Nat
  | [] => 0
  | Opt.r _ :: rest => count_r rest + 1
  | _ :: rest => count_r rest

/-- A sample layout: an 800x600 Normal screen followed by a 1080x1920 Left
screen. -/
abbrev sample_screens : List Screen :=
  [⟨800, 600, RR_Rotate_0⟩, ⟨1080, 1920, RR_Rotate_90⟩]

/-- Sample contents of the two slots of `screens` that follow `sample_screens`. -/
abbrev sample_rest : List Screen := [⟨0, 0, 0⟩, ⟨0, 0, 0⟩]

/-! ## Auxiliary facts -/

theorem int_add_of_is_int (a b : Int) (h : is_int (a + b)) : int_add a b = a + b := by
  unfold int_add
  split_ifs
  · unfold is_int at h
    unfold wrap_int
    have h1 : (-2147483648 : Int) ≤ a + b := h.1
    have h2 : a + b ≤ (2147483647 : Int) := h.2
    omega
  · rfl

theorem int_add_zero_left (b : Int) : int_add 0 b = b := by
  unfold int_add
  split_ifs with h
  · have h1 : (-2147483648 : Int) ≤ b := h.2.1
    have h2 : b ≤ (2147483647 : Int) := h.2.2
    unfold wrap_int
    omega
  · exact zero_add b

theorem layout_step_valid (ts_index : Int) (st : Layout) (i : Nat) (s : Screen)
    (h : valid_rotation s.rotation) :
    layout_step ts_index st i s =
      ⟨int_add st.cwidth (canvas_width s), max st.cheight (canvas_height s),
       if (i : Int) < ts_index then int_add st.x_org s.width else st.x_org, st.y_org⟩ := by
  have hmax : ∀ a b : Int, (if a < b then b else a) = max a b := by
    intro a b
    rcases lt_or_le a b with hab | hab
    · rw [if_pos hab, max_eq_right hab.le]
    · rw [if_neg (not_lt.mpr hab), max_eq_left hab]
  rcases h with h | h | h | h <;>
    simp [layout_step, canvas_width, canvas_height, h, hmax]

theorem layout_from_cwidth (ts_index : Int) (l : List Screen) :
    ∀ (i : Nat) (st : Layout), (∀ s ∈ l, valid_rotation s.rotation) →
      (∀ s ∈ l, 0 ≤ canvas_width s) → INT_MIN ≤ st.cwidth →
      st.cwidth + (l.map canvas_width).sum ≤ INT_MAX →
      (layout_from ts_index i l st).cwidth = st.cwidth + (l.map canvas_width).sum := by
  induction l with
  | nil => intro i st _ _ _ _; simp [layout_from]
  | cons s rest ih =>
    intro i st h hnn hlo hhi
    have hs : valid_rotation s.rotation := h s (List.mem_cons_self s rest)
    have hrest : ∀ t ∈ rest, valid_rotation t.rotation :=
      fun t ht => h t (List.mem_cons_of_mem s ht)
    have hs0 : 0 ≤ canvas_width s := hnn s (List.mem_cons_self s rest)
    have hnnrest : ∀ t ∈ rest, 0 ≤ canvas_width t :=
      fun t ht => hnn t (List.mem_cons_of_mem s ht)
    have hsum0 : 0 ≤ (rest.map canvas_width).sum :=
      List.sum_nonneg (fun x hx => by
        obtain ⟨t, ht, rfl⟩ := List.mem_map.mp hx
        exact hnnrest t ht)
    simp only [List.map_cons, List.sum_cons] at hhi ⊢
    have hadd : int_add st.cwidth (canvas_width s) = st.cwidth + canvas_width s :=
      int_add_of_is_int _ _ ⟨by linarith, by linarith⟩
    rw [layout_from, layout_step_valid _ _ _ _ hs]
    rw [ih (i + 1) _ hrest hnnrest (by simp only [hadd]; linarith)
      (by simp only [hadd]; linarith)]
    simp only [hadd]
    ring

theorem layout_from_cheight (ts_index : Int) (l : List Screen) :
    ∀ (i : Nat) (st : Layout), (∀ s ∈ l, valid_rotation s.rotation) →
      (layout_from ts_index i l st).cheight = (l.map canvas_height).foldl max st.cheight := by
  induction l with
  | nil => intro i st _; simp [layout_from]
  | cons s rest ih =>
    intro i st h
    have hs : valid_rotation s.rotation := h s (List.mem_cons_self s rest)
    have hrest : ∀ t ∈ rest, valid_rotation t.rotation :=
      fun t ht => h t (List.mem_cons_of_mem s ht)
    rw [layout_from, ih _ _ hrest, layout_step_valid _ _ _ _ hs]
    simp only [List.map_cons, List.foldl_cons]

theorem layout_from_x_org (ts_index : Int) (l : List Screen) :
    ∀ (i : Nat) (st : Layout), (∀ s ∈ l, valid_rotation s.rotation) →
      (∀ s ∈ l, 0 ≤ s.width) → INT_MIN ≤ st.x_org →
      st.x_org + ((l.take (ts_index - i).toNat).map Screen.width).sum ≤ INT_MAX →
      (layout_from ts_index i l st).x_org
        = st.x_org + ((l.take (ts_index - i).toNat).map Screen.width).sum := by
  induction l with
  | nil => intro i st _ _ _ _; simp [layout_from]
  | cons s rest ih =>
    intro i st h hnn hlo hhi
    have hs : valid_rotation s.rotation := h s (List.mem_cons_self s rest)
    have hrest : ∀ t ∈ rest, valid_rotation t.rotation :=
      fun t ht => h t (List.mem_cons_of_mem s ht)
    have hs0 : 0 ≤ s.width := hnn s (List.mem_cons_self s rest)
    have hnnrest : ∀ t ∈ rest, 0 ≤ t.width :=
      fun t ht => hnn t (List.mem_cons_of_mem s ht)
    rw [layout_from, layout_step_valid _ _ _ _ hs]
    by_cases hi : (i : Int) < ts_index
    · obtain ⟨k, hk⟩ : ∃ k : Nat, (ts_index - i).toNat = k + 1 :=
        ⟨(ts_index - i).toNat - 1, by omega⟩
      have hk2 : (ts_index - ((i + 1 : Nat) : Int)).toNat = k := by omega
      rw [hk] at hhi ⊢
      simp only [List.take_succ_cons, List.map_cons, List.sum_cons] at hhi ⊢
      have hsum0 : 0 ≤ ((rest.take k).map Screen.width).sum :=
        List.sum_nonneg (fun x hx => by
          obtain ⟨t, ht, rfl⟩ := List.mem_map.mp hx
          exact hnnrest t (List.mem_of_mem_take ht))
      have hadd : int_add st.x_org s.width = st.x_org + s.width :=
        int_add_of_is_int _ _ ⟨by linarith, by linarith⟩
      rw [ih (i + 1) _ hrest hnnrest
        (by simp only [if_pos hi, hadd]; linarith)
        (by rw [hk2]; simp only [if_pos hi, hadd]; linarith)]
      rw [hk2]
      simp only [if_pos hi, hadd]
      ring
    · have hk : (ts_index - i).toNat = 0 := by omega
      have hk2 : (ts_index - ((i + 1 : Nat) : Int)).toNat = 0 := by omega
      rw [hk] at hhi ⊢
      rw [ih (i + 1) _ hrest hnnrest (by simp only [if_neg hi]; exact hlo)
        (by rw [hk2]; simp only [if_neg hi]; simpa using hhi)]
      rw [hk2]
      simp [if_neg hi]

theorem foldl_max_ge_init (hs : List Int) : ∀ a : Int, a ≤ hs.foldl max a := by
  induction hs with
  | nil => intro a; simp
  | cons b rest ih =>
    intro a
    simp only [List.foldl_cons]
    exact le_trans (le_max_left a b) (ih _)

theorem foldl_max_ge_mem (hs : List Int) : ∀ a : Int, ∀ b ∈ hs, b ≤ hs.foldl max a := by
  induction hs with
  | nil => intro a b hb; simp at hb
  | cons c rest ih =>
    intro a b hb
    simp only [List.foldl_cons]
    rcases List.mem_cons.mp hb with rfl | hb
    · exact le_trans (le_max_right a b) (foldl_max_ge_init rest _)
    · exact ih _ b hb

theorem layout_loop_append (l rest : List Screen) (ts_index : Int) :
    layout_loop (l ++ rest) l.length ts_index = layout_from ts_index 0 l ⟨0, 0, 0, 0⟩ := by
  simp [layout_loop]

theorem canvas_width_pos (s : Screen) (h : 0 < s.width ∧ 0 < s.height) : 0 < canvas_width s := by
  unfold canvas_width
  split_ifs
  · exact h.2
  · exact h.1

theorem canvas_height_pos (s : Screen) (h : 0 < s.width ∧ 0 < s.height) :
    0 < canvas_height s := by
  unfold canvas_height
  split_ifs
  · exact h.1
  · exact h.2

theorem effective_size_valid (t : Screen) (s_width s_height : Int)
    (h : valid_rotation t.rotation) :
    effective_size t s_width s_height = (canvas_width t, canvas_height t) := by
  rcases h with h | h | h | h <;> simp [effective_size, canvas_width, canvas_height, h]

theorem sum_map_split (f : Screen → Int) (l : List Screen) :
    ∀ (t : Nat) (ht : t < l.length),
      ((l.take t).map f).sum + f l[t] + ((l.drop (t + 1)).map f).sum = (l.map f).sum := by
  induction l with
  | nil => intro t ht; simp at ht
  | cons a rest ih =>
    intro t ht
    cases t with
    | zero => simp
    | succ k =>
      have hk : k < rest.length := by simpa using ht
      have := ih k hk
      simp only [List.take_succ_cons, List.map_cons, List.sum_cons, List.getElem_cons_succ,
        List.drop_succ_cons]
      linarith

theorem sum_map_nonneg (f : Screen → Int) (l : List Screen) (h : ∀ s ∈ l, 0 ≤ f s) :
    0 ≤ (l.map f).sum := by
  induction l with
  | nil => simp
  | cons a rest ih =>
    simp only [List.map_cons, List.sum_cons]
    have h1 := h a (List.mem_cons_self a rest)
    have h2 := ih (fun s hs => h s (List.mem_cons_of_mem a hs))
    linarith

theorem sum_map_congr (f g : Screen → Int) (l : List Screen) (h : ∀ s ∈ l, f s = g s) :
    (l.map f).sum = (l.map g).sum := by
  induction l with
  | nil => simp
  | cons a rest ih =>
    simp only [List.map_cons, List.sum_cons]
    rw [h a (List.mem_cons_self a rest), ih (fun s hs => h s (List.mem_cons_of_mem a hs))]

theorem layout_loop_cheight_pos (l rest : List Screen) (ts_index : Int) (hne : l ≠ [])
    (hpos : ∀ s ∈ l, 0 < s.width ∧ 0 < s.height)
    (hrot : ∀ s ∈ l, valid_rotation s.rotation) :
    0 < (layout_loop (l ++ rest) l.length ts_index).cheight := by
  rw [layout_loop_append, layout_from_cheight ts_index l 0 ⟨0, 0, 0, 0⟩ hrot]
  cases l with
  | nil => exact absurd rfl hne
  | cons a tl =>
    have h1 := canvas_height_pos a (hpos a (List.mem_cons_self a tl))
    have h2 := foldl_max_ge_mem ((a :: tl).map canvas_height) 0 (canvas_height a)
      (List.mem_map_of_mem canvas_height (List.mem_cons_self a tl))
    linarith

theorem layout_loop_cwidth_eq (l rest : List Screen) (ts_index : Int)
    (hpos : ∀ s ∈ l, 0 < s.width ∧ 0 < s.height)
    (hrot : ∀ s ∈ l, valid_rotation s.rotation)
    (hsum : (l.map canvas_width).sum ≤ INT_MAX) :
    (layout_loop (l ++ rest) l.length ts_index).cwidth = (l.map canvas_width).sum := by
  rw [layout_loop_append, layout_from_cwidth ts_index l 0 ⟨0, 0, 0, 0⟩ hrot
    (fun s hs => (canvas_width_pos s (hpos s hs)).le) (by decide)
    (by simpa using hsum)]
  simp

theorem layout_loop_x_org_eq (l rest : List Screen) (ts_index : Int)
    (hpos : ∀ s ∈ l, 0 < s.width ∧ 0 < s.height)
    (hrot : ∀ s ∈ l, valid_rotation s.rotation)
    (hsum : ((l.take ts_index.toNat).map Screen.width).sum ≤ INT_MAX) :
    (layout_loop (l ++ rest) l.length ts_index).x_org
      = ((l.take ts_index.toNat).map Screen.width).sum := by
  rw [layout_loop_append, layout_from_x_org ts_index l 0 ⟨0, 0, 0, 0⟩ hrot
    (fun s hs => (hpos s hs).1.le) (by decide)
    (by simpa using hsum)]
  simp

theorem layout_loop_cwidth_pos (l rest : List Screen) (ts_index : Int) (hne : l ≠ [])
    (hpos : ∀ s ∈ l, 0 < s.width ∧ 0 < s.height)
    (hrot : ∀ s ∈ l, valid_rotation s.rotation)
    (hsum : (l.map canvas_width).sum ≤ INT_MAX) :
    0 < (layout_loop (l ++ rest) l.length ts_index).cwidth := by
  rw [layout_loop_cwidth_eq l rest ts_index hpos hrot hsum]
  cases l with
  | nil => exact absurd rfl hne
  | cons a tl =>
    have h1 := canvas_width_pos a (hpos a (List.mem_cons_self a tl))
    have h2 := sum_map_nonneg canvas_width tl
      (fun s hs => (canvas_width_pos s (hpos s (List.mem_cons_of_mem a hs))).le)
    simp only [List.map_cons, List.sum_cons]
    linarith

/-- The four matrices of the `switch` in `set_transformation_matrix`. -/
theorem set_transformation_matrix_entries {F : Type} [Zero F] [One F] [Add F] [Neg F] [Div F]
    [IntCast F] (width height offset_x offset_y screen_width screen_height : Int)
    (m : Matrix F) :
    set_transformation_matrix width height m offset_x offset_y screen_width screen_height
        RR_Rotate_0
      = ⟨[(screen_width : F) / (width : F), 0, (offset_x : F) / (width : F),
          0, (screen_height : F) / (height : F), (offset_y : F) / (height : F),
          0, 0, 1]⟩
    ∧ set_transformation_matrix width height m offset_x offset_y screen_width screen_height
        RR_Rotate_90
      = ⟨[0, -((screen_width : F) / (width : F)),
          (offset_x : F) / (width : F) + (screen_width : F) / (width : F),
          (screen_height : F) / (height : F), 0, (offset_y : F) / (height : F),
          0, 0, 1]⟩
    ∧ set_transformation_matrix width height m offset_x offset_y screen_width screen_height
        RR_Rotate_180
      = ⟨[-((screen_width : F) / (width : F)), 0,
          (offset_x : F) / (width : F) + (screen_width : F) / (width : F),
          0, -((screen_height : F) / (height : F)),
          (offset_y : F) / (height : F) + (screen_height : F) / (height : F),
          0, 0, 1]⟩
    ∧ set_transformation_matrix width height m offset_x offset_y screen_width screen_height
        RR_Rotate_270
      = ⟨[0, (screen_width : F) / (width : F), (offset_x : F) / (width : F),
          -((screen_height : F) / (height : F)), 0,
          (offset_y : F) / (height : F) + (screen_height : F) / (height : F),
          0, 0, 1]⟩ := by
  refine ⟨?_, ?_, ?_, ?_⟩ <;>
    simp [set_transformation_matrix, matrix_s4, matrix_set_unity, matrix_set, List.replicate]

/-! ## The matrix table -/

/-- C1: for every canvas size, offset and effective size, with
`x = offset_x/width`, `y = offset_y/height`, `w = screen_width/width`,
`h = screen_height/height`, `set_transformation_matrix` yields
`[w,0,x, 0,h,y, 0,0,1]` for Normal, `[0,-w,x+w, h,0,y, 0,0,1]` for Left,
`[-w,0,x+w, 0,-h,y+h, 0,0,1]` for Inverted and `[0,w,x, -h,0,y+h, 0,0,1]` for
Right, in every number type `F`. -/
theorem set_transformation_matrix_table {F : Type} [Zero F] [One F] [Add F] [Neg F] [Div F]
    [IntCast F] (width height offset_x offset_y screen_width screen_height : Int)
    (m : Matrix F) :
    set_transformation_matrix width height m offset_x offset_y screen_width screen_height
        RR_Rotate_0
      = ⟨[(screen_width : F) / (width : F), 0, (offset_x : F) / (width : F),
          0, (screen_height : F) / (height : F), (offset_y : F) / (height : F),
          0, 0, 1]⟩
    ∧ set_transformation_matrix width height m offset_x offset_y screen_width screen_height
        RR_Rotate_90
      = ⟨[0, -((screen_width : F) / (width : F)),
          (offset_x : F) / (width : F) + (screen_width : F) / (width : F),
          (screen_height : F) / (height : F), 0, (offset_y : F) / (height : F),
          0, 0, 1]⟩
    ∧ set_transformation_matrix width height m offset_x offset_y screen_width screen_height
        RR_Rotate_180
      = ⟨[-((screen_width : F) / (width : F)), 0,
          (offset_x : F) / (width : F) + (screen_width : F) / (width : F),
          0, -((screen_height : F) / (height : F)),
          (offset_y : F) / (height : F) + (screen_height : F) / (height : F),
          0, 0, 1]⟩
    ∧ set_transformation_matrix width height m offset_x offset_y screen_width screen_height
        RR_Rotate_270
      = ⟨[0, (screen_width : F) / (width : F), (offset_x : F) / (width : F),
          -((screen_height : F) / (height : F)), 0,
          (offset_y : F) / (height : F) + (screen_height : F) / (height : F),
          0, 0, 1]⟩ :=
  set_transformation_matrix_entries width height offset_x offset_y screen_width screen_height m

/-! ## The image of the unit square -/

theorem segment_forward (a w t : ℚ) (hw : 0 ≤ w) (h0 : 0 ≤ t) (h1 : t ≤ 1) :
    a ≤ w * t + a ∧ w * t + a ≤ a + w := by
  constructor <;> nlinarith [mul_nonneg hw h0, mul_nonneg hw (sub_nonneg.mpr h1)]

theorem segment_forward_neg (a w t : ℚ) (hw : 0 ≤ w) (h0 : 0 ≤ t) (h1 : t ≤ 1) :
    a ≤ -w * t + (a + w) ∧ -w * t + (a + w) ≤ a + w := by
  constructor <;> nlinarith [mul_nonneg hw h0, mul_nonneg hw (sub_nonneg.mpr h1)]

theorem segment_backward (a w p : ℚ) (hw : 0 ≤ w) (h0 : a ≤ p) (h1 : p ≤ a + w) :
    ∃ t : ℚ, 0 ≤ t ∧ t ≤ 1 ∧ w * t + a = p := by
  rcases eq_or_lt_of_le hw with hz | hpos
  · refine ⟨0, le_refl 0, zero_le_one, ?_⟩
    have : p = a := by linarith
    rw [this]; ring
  · refine ⟨(p - a) / w, div_nonneg (by linarith) hw, ?_, ?_⟩
    · rw [div_le_one hpos]; linarith
    · field_simp

theorem segment_backward_neg (a w p : ℚ) (hw : 0 ≤ w) (h0 : a ≤ p) (h1 : p ≤ a + w) :
    ∃ t : ℚ, 0 ≤ t ∧ t ≤ 1 ∧ -w * t + (a + w) = p := by
  rcases eq_or_lt_of_le hw with hz | hpos
  · refine ⟨0, le_refl 0, zero_le_one, ?_⟩
    have : p = a := by linarith
    rw [this, ← hz]; ring
  · refine ⟨(a + w - p) / w, div_nonneg (by linarith) hw, ?_, ?_⟩
    · rw [div_le_one hpos]; linarith
    · field_simp
      ring

/-- C2: with exact arithmetic (`ℚ`), for each of the four rotations and every
`x = offset_x/width`, `y = offset_y/height`, `w = screen_width/width ≥ 0`,
`h = screen_height/height ≥ 0`, the affine map of the matrix built by
`set_transformation_matrix` sends every point `(u, v)` of the unit square into
the rectangle `[x, x+w] × [y, y+h]`, and every point of that rectangle is the
image of a point of the unit square. -/
theorem set_transformation_matrix_unit_square
    (width height offset_x offset_y screen_width screen_height rotation : Int) (m : Matrix ℚ)
    (hrot : valid_rotation rotation)
    (hw : (0 : ℚ) ≤ (screen_width : ℚ) / (width : ℚ))
    (hh : (0 : ℚ) ≤ (screen_height : ℚ) / (height : ℚ)) :
    (∀ u v : ℚ, 0 ≤ u → u ≤ 1 → 0 ≤ v → v ≤ 1 →
      (offset_x : ℚ) / (width : ℚ)
          ≤ (apply_affine (set_transformation_matrix width height m offset_x offset_y
              screen_width screen_height rotation) u v).1
        ∧ (apply_affine (set_transformation_matrix width height m offset_x offset_y
              screen_width screen_height rotation) u v).1
          ≤ (offset_x : ℚ) / (width : ℚ) + (screen_width : ℚ) / (width : ℚ)
        ∧ (offset_y : ℚ) / (height : ℚ)
          ≤ (apply_affine (set_transformation_matrix width height m offset_x offset_y
              screen_width screen_height rotation) u v).2
        ∧ (apply_affine (set_transformation_matrix width height m offset_x offset_y
              screen_width screen_height rotation) u v).2
          ≤ (offset_y : ℚ) / (height : ℚ) + (screen_height : ℚ) / (height : ℚ))
    ∧ (∀ p q : ℚ,
        (offset_x : ℚ) / (width : ℚ) ≤ p →
        p ≤ (offset_x : ℚ) / (width : ℚ) + (screen_width : ℚ) / (width : ℚ) →
        (offset_y : ℚ) / (height : ℚ) ≤ q →
        q ≤ (offset_y : ℚ) / (height : ℚ) + (screen_height : ℚ) / (height : ℚ) →
        ∃ u v : ℚ, 0 ≤ u ∧ u ≤ 1 ∧ 0 ≤ v ∧ v ≤ 1 ∧
          apply_affine (set_transformation_matrix width height m offset_x offset_y
              screen_width screen_height rotation) u v = (p, q)) := by
  have htab := @set_transformation_matrix_entries ℚ _ _ _ _ _ _ width height offset_x offset_y
    screen_width screen_height m
  generalize (offset_x : ℚ) / (width : ℚ) = x at *
  generalize (offset_y : ℚ) / (height : ℚ) = y at *
  generalize (screen_width : ℚ) / (width : ℚ) = w at *
  generalize (screen_height : ℚ) / (height : ℚ) = h at *
  obtain ⟨t0, t90, t180, t270⟩ := htab
  rcases hrot with rfl | rfl | rfl | rfl
  · rw [t0]
    refine ⟨fun u v hu0 hu1 hv0 hv1 => ?_, fun p q hp0 hp1 hq0 hq1 => ?_⟩
    · have h1 := segment_forward x w u hw hu0 hu1
      have h2 := segment_forward y h v hh hv0 hv1
      simp only [apply_affine, List.getD_cons_zero, List.getD_cons_succ]
      refine ⟨?_, ?_, ?_, ?_⟩ <;> linarith [h1.1, h1.2, h2.1, h2.2]
    · obtain ⟨u, hu0, hu1, hu⟩ := segment_backward x w p hw hp0 hp1
      obtain ⟨v, hv0, hv1, hv⟩ := segment_backward y h q hh hq0 hq1
      refine ⟨u, v, hu0, hu1, hv0, hv1, ?_⟩
      simp only [apply_affine, List.getD_cons_zero, List.getD_cons_succ]
      refine Prod.ext ?_ ?_ <;> simp only <;> linarith
  · rw [t90]
    refine ⟨fun u v hu0 hu1 hv0 hv1 => ?_, fun p q hp0 hp1 hq0 hq1 => ?_⟩
    · have h1 := segment_forward_neg x w v hw hv0 hv1
      have h2 := segment_forward y h u hh hu0 hu1
      simp only [apply_affine, List.getD_cons_zero, List.getD_cons_succ]
      refine ⟨?_, ?_, ?_, ?_⟩ <;> linarith [h1.1, h1.2, h2.1, h2.2]
    · obtain ⟨v, hv0, hv1, hv⟩ := segment_backward_neg x w p hw hp0 hp1
      obtain ⟨u, hu0, hu1, hu⟩ := segment_backward y h q hh hq0 hq1
      refine ⟨u, v, hu0, hu1, hv0, hv1, ?_⟩
      simp only [apply_affine, List.getD_cons_zero, List.getD_cons_succ]
      refine Prod.ext ?_ ?_ <;> simp only <;> linarith
  · rw [t180]
    refine ⟨fun u v hu0 hu1 hv0 hv1 => ?_, fun p q hp0 hp1 hq0 hq1 => ?_⟩
    · have h1 := segment_forward_neg x w u hw hu0 hu1
      have h2 := segment_forward_neg y h v hh hv0 hv1
      simp only [apply_affine, List.getD_cons_zero, List.getD_cons_succ]
      refine ⟨?_, ?_, ?_, ?_⟩ <;> linarith [h1.1, h1.2, h2.1, h2.2]
    · obtain ⟨u, hu0, hu1, hu⟩ := segment_backward_neg x w p hw hp0 hp1
      obtain ⟨v, hv0, hv1, hv⟩ := segment_backward_neg y h q hh hq0 hq1
      refine ⟨u, v, hu0, hu1, hv0, hv1, ?_⟩
      simp only [apply_affine, List.getD_cons_zero, List.getD_cons_succ]
      refine Prod.ext ?_ ?_ <;> simp only <;> linarith
  · rw [t270]
    refine ⟨fun u v hu0 hu1 hv0 hv1 => ?_, fun p q hp0 hp1 hq0 hq1 => ?_⟩
    · have h1 := segment_forward x w v hw hv0 hv1
      have h2 := segment_forward_neg y h u hh hu0 hu1
      simp only [apply_affine, List.getD_cons_zero, List.getD_cons_succ]
      refine ⟨?_, ?_, ?_, ?_⟩ <;> linarith [h1.1, h1.2, h2.1, h2.2]
    · obtain ⟨v, hv0, hv1, hv⟩ := segment_backward x w p hw hp0 hp1
      obtain ⟨u, hu0, hu1, hu⟩ := segment_backward_neg y h q hh hq0 hq1
      refine ⟨u, v, hu0, hu1, hv0, hv1, ?_⟩
      simp only [apply_affine, List.getD_cons_zero, List.getD_cons_succ]
      refine Prod.ext ?_ ?_ <;> simp only <;> linarith

/-- Witness of `set_transformation_matrix_unit_square`: the right half of a
1600x600 canvas, rotation Left. -/
theorem set_transformation_matrix_unit_square_witness :
    valid_rotation RR_Rotate_90
    ∧ (0 : ℚ) ≤ ((800 : Int) : ℚ) / ((1600 : Int) : ℚ)
    ∧ (0 : ℚ) ≤ ((600 : Int) : ℚ) / ((600 : Int) : ℚ)
    ∧ ((∀ u v : ℚ, 0 ≤ u → u ≤ 1 → 0 ≤ v → v ≤ 1 →
      ((800 : Int) : ℚ) / ((1600 : Int) : ℚ)
          ≤ (apply_affine (set_transformation_matrix 1600 600 (⟨[]⟩ : Matrix ℚ) 800 0
              800 600 RR_Rotate_90) u v).1
        ∧ (apply_affine (set_transformation_matrix 1600 600 (⟨[]⟩ : Matrix ℚ) 800 0
              800 600 RR_Rotate_90) u v).1
          ≤ ((800 : Int) : ℚ) / ((1600 : Int) : ℚ) + ((800 : Int) : ℚ) / ((1600 : Int) : ℚ)
        ∧ ((0 : Int) : ℚ) / ((600 : Int) : ℚ)
          ≤ (apply_affine (set_transformation_matrix 1600 600 (⟨[]⟩ : Matrix ℚ) 800 0
              800 600 RR_Rotate_90) u v).2
        ∧ (apply_affine (set_transformation_matrix 1600 600 (⟨[]⟩ : Matrix ℚ) 800 0
              800 600 RR_Rotate_90) u v).2
          ≤ ((0 : Int) : ℚ) / ((600 : Int) : ℚ) + ((600 : Int) : ℚ) / ((600 : Int) : ℚ))
    ∧ (∀ p q : ℚ,
        ((800 : Int) : ℚ) / ((1600 : Int) : ℚ) ≤ p →
        p ≤ ((800 : Int) : ℚ) / ((1600 : Int) : ℚ) + ((800 : Int) : ℚ) / ((1600 : Int) : ℚ) →
        ((0 : Int) : ℚ) / ((600 : Int) : ℚ) ≤ q →
        q ≤ ((0 : Int) : ℚ) / ((600 : Int) : ℚ) + ((600 : Int) : ℚ) / ((600 : Int) : ℚ) →
        ∃ u v : ℚ, 0 ≤ u ∧ u ≤ 1 ∧ 0 ≤ v ∧ v ≤ 1 ∧
          apply_affine (set_transformation_matrix 1600 600 (⟨[]⟩ : Matrix ℚ) 800 0
              800 600 RR_Rotate_90) u v = (p, q))) :=
  ⟨by decide, by norm_num, by norm_num,
   set_transformation_matrix_unit_square 1600 600 800 0 800 600 RR_Rotate_90 ⟨[]⟩
     (by decide) (by norm_num) (by norm_num)⟩

/-! ## The layout loop -/

/-- C5, the code at the failing input: one screen `800x600` and target index
`1` (the screen count).  `main` does not fail: whatever the unwritten slot
`screens[1]` and the uninitialised locals hold, it prints a matrix and returns
`0`; with a zero-filled slot the matrix is `[0,0,1, 0,0,0, 0,0,1]`. -/
theorem main_compute_index_equal_count :
    (∀ (junk : Screen) (s_width s_height : Int) (m : Matrix ℚ),
      ∃ M : Matrix ℚ,
        main_compute [⟨800, 600, RR_Rotate_0⟩, junk, junk, junk] 1 1 s_width s_height m
          = Outcome.printed M)
    ∧ (main_compute [⟨800, 600, RR_Rotate_0⟩, ⟨0, 0, 0⟩, ⟨0, 0, 0⟩, ⟨0, 0, 0⟩] 1 1 0 0
          (⟨[]⟩ : Matrix ℚ))
        = Outcome.printed ⟨[0, 0, 1, 0, 0, 0, 0, 0, 1]⟩ := by
  refine ⟨fun junk s_width s_height m => ?_, ?_⟩
  · simp [main_compute, screen_at]
  · simp [main_compute, screen_at, layout_loop, layout_from, layout_step,
      int_add_zero_left, effective_size,
      set_transformation_matrix, matrix_s4, matrix_set_unity, matrix_set]

/-! ## Normalized values -/

/-- C6, the code at the failing input: a `1000x10` Left screen before the
`10x10` Normal target, target index `1`.  The loop yields `x_org = 1000` and
`cwidth = 20`, so `x = x_org/cwidth = 50 > 1`, and `50` is the entry `m[0][2]`
of the printed matrix. -/
theorem main_compute_rotated_predecessor :
    (layout_loop [⟨1000, 10, RR_Rotate_90⟩, ⟨10, 10, RR_Rotate_0⟩, ⟨0, 0, 0⟩, ⟨0, 0, 0⟩]
        2 1).x_org = 1000
    ∧ (layout_loop [⟨1000, 10, RR_Rotate_90⟩, ⟨10, 10, RR_Rotate_0⟩, ⟨0, 0, 0⟩, ⟨0, 0, 0⟩]
        2 1).cwidth = 20
    ∧ (1 : ℚ) < ((1000 : Int) : ℚ) / ((20 : Int) : ℚ)
    ∧ (main_compute [⟨1000, 10, RR_Rotate_90⟩, ⟨10, 10, RR_Rotate_0⟩, ⟨0, 0, 0⟩, ⟨0, 0, 0⟩]
          2 1 0 0 (⟨[]⟩ : Matrix ℚ))
        = Outcome.printed ⟨[1 / 2, 0, 50, 0, 1 / 100, 0, 0, 0, 1]⟩ := by
  have h20 : int_add 10 10 = 20 := by decide
  refine ⟨by decide, by decide, by norm_num, ?_⟩
  simp [main_compute, screen_at, layout_loop, layout_from, layout_step, int_add_zero_left,
    h20, effective_size, set_transformation_matrix, matrix_s4, matrix_set_unity, matrix_set]
  norm_num

/-! ## Worked layouts -/

/-- C7 (as amended): two screens of the same positive width `W` and height `H`
with `2 * W ≤ INT_MAX`, both Normal, target index 1: the canvas is `(2W, H)`
and the matrix is `[1/2, 0, 1/2, 0, 1, 0, 0, 0, 1]` (exact arithmetic). -/
theorem two_equal_normal_screens (W H : Int) (hW : 0 < W) (hH : 0 < H)
    (hfit : 2 * W ≤ INT_MAX)
    (rest : List Screen) (s_width s_height : Int) (m : Matrix ℚ) :
    (layout_loop (⟨W, H, RR_Rotate_0⟩ :: ⟨W, H, RR_Rotate_0⟩ :: rest) 2 1).cwidth = 2 * W
    ∧ (layout_loop (⟨W, H, RR_Rotate_0⟩ :: ⟨W, H, RR_Rotate_0⟩ :: rest) 2 1).cheight = H
    ∧ main_compute (⟨W, H, RR_Rotate_0⟩ :: ⟨W, H, RR_Rotate_0⟩ :: rest) 2 1 s_width s_height m
        = Outcome.printed ⟨[1 / 2, 0, 1 / 2, 0, 1, 0, 0, 0, 1]⟩ := by
  have hWq : (W : ℚ) ≠ 0 := by exact_mod_cast hW.ne.symm
  have hHq : (H : ℚ) ≠ 0 := by exact_mod_cast hH.ne.symm
  have hhalf : (W : ℚ) / ((W : ℚ) + (W : ℚ)) = 1 / 2 := by
    field_simp
    ring
  have hadd : int_add W W = W + W := by
    have h1 : W + W ≤ (2147483647 : Int) := by
      have h2 : 2 * W ≤ (2147483647 : Int) := hfit
      linarith
    exact int_add_of_is_int W W ⟨by show (-2147483648 : Int) ≤ W + W; linarith, h1⟩
  refine ⟨?_, ?_, ?_⟩
  · simp [layout_loop, layout_from, layout_step, int_add_zero_left, hadd]
    ring
  · simp [layout_loop, layout_from, layout_step, int_add_zero_left, hH]
  · simp [main_compute, screen_at, layout_loop, layout_from, layout_step, int_add_zero_left,
      hadd, effective_size, set_transformation_matrix, matrix_s4, matrix_set_unity,
      matrix_set, hH, hHq, hhalf]

/-- Witness of `two_equal_normal_screens`: two 1920x1080 screens. -/
theorem two_equal_normal_screens_witness :
    (0 : Int) < 1920 ∧ (0 : Int) < 1080 ∧ 2 * (1920 : Int) ≤ INT_MAX
    ∧ (layout_loop (⟨1920, 1080, RR_Rotate_0⟩ :: ⟨1920, 1080, RR_Rotate_0⟩
          :: [⟨0, 0, 0⟩, ⟨0, 0, 0⟩]) 2 1).cwidth = 2 * 1920
    ∧ (layout_loop (⟨1920, 1080, RR_Rotate_0⟩ :: ⟨1920, 1080, RR_Rotate_0⟩
          :: [⟨0, 0, 0⟩, ⟨0, 0, 0⟩]) 2 1).cheight = 1080
    ∧ main_compute (⟨1920, 1080, RR_Rotate_0⟩ :: ⟨1920, 1080, RR_Rotate_0⟩
          :: [⟨0, 0, 0⟩, ⟨0, 0, 0⟩]) 2 1 0 0 (⟨[]⟩ : Matrix ℚ)
        = Outcome.printed ⟨[1 / 2, 0, 1 / 2, 0, 1, 0, 0, 0, 1]⟩ :=
  ⟨by decide, by decide, by decide,
   two_equal_normal_screens 1920 1080 (by decide) (by decide) (by decide)
     [⟨0, 0, 0⟩, ⟨0, 0, 0⟩] 0 0 ⟨[]⟩⟩

/-- C7 as stated fails: for two Normal screens `1073741824x1` and target index 1
the sum `W + W = 2147483648` is no `int`; the program's `cwidth` is
`-2147483648`, not `2W`, and the matrix is `[-1/2, 0, -1/2, 0, 1, 0, 0, 0, 1]`. -/
theorem two_equal_normal_screens_overflow :
    (0 : Int) < 1073741824 ∧ is_int 1073741824
    ∧ (layout_loop [⟨1073741824, 1, RR_Rotate_0⟩, ⟨1073741824, 1, RR_Rotate_0⟩, ⟨0, 0, 0⟩,
        ⟨0, 0, 0⟩] 2 1).cwidth = -2147483648
    ∧ (layout_loop [⟨1073741824, 1, RR_Rotate_0⟩, ⟨1073741824, 1, RR_Rotate_0⟩, ⟨0, 0, 0⟩,
        ⟨0, 0, 0⟩] 2 1).cwidth ≠ 2 * 1073741824
    ∧ main_compute [⟨1073741824, 1, RR_Rotate_0⟩, ⟨1073741824, 1, RR_Rotate_0⟩, ⟨0, 0, 0⟩,
          ⟨0, 0, 0⟩] 2 1 0 0 (⟨[]⟩ : Matrix ℚ)
        = Outcome.printed ⟨[-1 / 2, 0, -1 / 2, 0, 1, 0, 0, 0, 1]⟩
    ∧ main_compute [⟨1073741824, 1, RR_Rotate_0⟩, ⟨1073741824, 1, RR_Rotate_0⟩, ⟨0, 0, 0⟩,
          ⟨0, 0, 0⟩] 2 1 0 0 (⟨[]⟩ : Matrix ℚ)
        ≠ Outcome.printed ⟨[1 / 2, 0, 1 / 2, 0, 1, 0, 0, 0, 1]⟩ := by
  have hwrap : int_add 1073741824 1073741824 = -2147483648 := by decide
  have hprinted : main_compute [⟨1073741824, 1, RR_Rotate_0⟩, ⟨1073741824, 1, RR_Rotate_0⟩,
        ⟨0, 0, 0⟩, ⟨0, 0, 0⟩] 2 1 0 0 (⟨[]⟩ : Matrix ℚ)
      = Outcome.printed ⟨[-1 / 2, 0, -1 / 2, 0, 1, 0, 0, 0, 1]⟩ := by
    simp [main_compute, screen_at, layout_loop, layout_from, layout_step, int_add_zero_left,
      hwrap, effective_size, set_transformation_matrix, matrix_s4, matrix_set_unity,
      matrix_set]
    norm_num
  refine ⟨by decide, by decide, by decide, by decide, hprinted, ?_⟩
  rw [hprinted]
  intro h
  have h2 := congrArg (fun o => match o with
    | Outcome.printed M => M.m.getD 0 0
    | _ => 0) h
  norm_num at h2

/-- C8: a single screen of positive width `W` and height `H`, rotation Left,
target index 0: the canvas is `(H, W)`, the effective size is `(H, W)`, and
the matrix is `[0, -1, 1, 1, 0, 0, 0, 0, 1]`. -/
theorem single_left_screen (W H : Int) (hW : 0 < W) (hH : 0 < H)
    (rest : List Screen) (s_width s_height : Int) (m : Matrix ℚ) :
    (layout_loop (⟨W, H, RR_Rotate_90⟩ :: rest) 1 0).cwidth = H
    ∧ (layout_loop (⟨W, H, RR_Rotate_90⟩ :: rest) 1 0).cheight = W
    ∧ effective_size ⟨W, H, RR_Rotate_90⟩ s_width s_height = (H, W)
    ∧ main_compute (⟨W, H, RR_Rotate_90⟩ :: rest) 1 0 s_width s_height m
        = Outcome.printed ⟨[0, -1, 1, 1, 0, 0, 0, 0, 1]⟩ := by
  have hWq : (W : ℚ) ≠ 0 := by exact_mod_cast hW.ne.symm
  have hHq : (H : ℚ) ≠ 0 := by exact_mod_cast hH.ne.symm
  refine ⟨?_, ?_, ?_, ?_⟩
  · simp [layout_loop, layout_from, layout_step, int_add_zero_left]
  · simp [layout_loop, layout_from, layout_step, int_add_zero_left, hW]
  · simp [effective_size]
  · simp [main_compute, screen_at, layout_loop, layout_from, layout_step,
      int_add_zero_left, effective_size,
      set_transformation_matrix, matrix_s4, matrix_set_unity, matrix_set, hW, hWq, hHq]

/-- Witness of `single_left_screen`: one 1080x1920 screen. -/
theorem single_left_screen_witness :
    (0 : Int) < 1080 ∧ (0 : Int) < 1920
    ∧ (layout_loop (⟨1080, 1920, RR_Rotate_90⟩ :: [⟨0, 0, 0⟩, ⟨0, 0, 0⟩, ⟨0, 0, 0⟩]) 1 0).cwidth
        = 1920
    ∧ (layout_loop (⟨1080, 1920, RR_Rotate_90⟩ :: [⟨0, 0, 0⟩, ⟨0, 0, 0⟩, ⟨0, 0, 0⟩]) 1 0).cheight
        = 1080
    ∧ effective_size ⟨1080, 1920, RR_Rotate_90⟩ 0 0 = (1920, 1080)
    ∧ main_compute (⟨1080, 1920, RR_Rotate_90⟩ :: [⟨0, 0, 0⟩, ⟨0, 0, 0⟩, ⟨0, 0, 0⟩]) 1 0 0 0
          (⟨[]⟩ : Matrix ℚ)
        = Outcome.printed ⟨[0, -1, 1, 1, 0, 0, 0, 0, 1]⟩ :=
  ⟨by decide, by decide,
   single_left_screen 1080 1920 (by decide) (by decide) [⟨0, 0, 0⟩, ⟨0, 0, 0⟩, ⟨0, 0, 0⟩]
     0 0 ⟨[]⟩⟩

/-- C9: a single screen of positive width and height, rotation Normal, target
index 0: the matrix is the identity `[1, 0, 0, 0, 1, 0, 0, 0, 1]`. -/
theorem single_normal_screen (W H : Int) (hW : 0 < W) (hH : 0 < H)
    (rest : List Screen) (s_width s_height : Int) (m : Matrix ℚ) :
    main_compute (⟨W, H, RR_Rotate_0⟩ :: rest) 1 0 s_width s_height m
      = Outcome.printed ⟨[1, 0, 0, 0, 1, 0, 0, 0, 1]⟩ := by
  have hWq : (W : ℚ) ≠ 0 := by exact_mod_cast hW.ne.symm
  have hHq : (H : ℚ) ≠ 0 := by exact_mod_cast hH.ne.symm
  simp [main_compute, screen_at, layout_loop, layout_from, layout_step,
      int_add_zero_left, effective_size,
    set_transformation_matrix, matrix_s4, matrix_set_unity, matrix_set, hH, hWq, hHq]

/-- Witness of `single_normal_screen`: one 800x600 screen. -/
theorem single_normal_screen_witness :
    (0 : Int) < 800 ∧ (0 : Int) < 600
    ∧ main_compute (⟨800, 600, RR_Rotate_0⟩ :: [⟨0, 0, 0⟩, ⟨0, 0, 0⟩, ⟨0, 0, 0⟩]) 1 0 0 0
          (⟨[]⟩ : Matrix ℚ)
        = Outcome.printed ⟨[1, 0, 0, 0, 1, 0, 0, 0, 1]⟩ :=
  ⟨by decide, by decide,
   single_normal_screen 800 600 (by decide) (by decide) [⟨0, 0, 0⟩, ⟨0, 0, 0⟩, ⟨0, 0, 0⟩]
     0 0 ⟨[]⟩⟩

/-- C10: a single screen of positive width and height, rotation Inverted,
target index 0: the matrix is `[-1, 0, 1, 0, -1, 1, 0, 0, 1]`. -/
theorem single_inverted_screen (W H : Int) (hW : 0 < W) (hH : 0 < H)
    (rest : List Screen) (s_width s_height : Int) (m : Matrix ℚ) :
    main_compute (⟨W, H, RR_Rotate_180⟩ :: rest) 1 0 s_width s_height m
      = Outcome.printed ⟨[-1, 0, 1, 0, -1, 1, 0, 0, 1]⟩ := by
  have hWq : (W : ℚ) ≠ 0 := by exact_mod_cast hW.ne.symm
  have hHq : (H : ℚ) ≠ 0 := by exact_mod_cast hH.ne.symm
  simp [main_compute, screen_at, layout_loop, layout_from, layout_step,
      int_add_zero_left, effective_size,
    set_transformation_matrix, matrix_s4, matrix_set_unity, matrix_set, hH, hWq, hHq]

/-- Witness of `single_inverted_screen`: one 800x600 screen. -/
theorem single_inverted_screen_witness :
    (0 : Int) < 800 ∧ (0 : Int) < 600
    ∧ main_compute (⟨800, 600, RR_Rotate_180⟩ :: [⟨0, 0, 0⟩, ⟨0, 0, 0⟩, ⟨0, 0, 0⟩]) 1 0 0 0
          (⟨[]⟩ : Matrix ℚ)
        = Outcome.printed ⟨[-1, 0, 1, 0, -1, 1, 0, 0, 1]⟩ :=
  ⟨by decide, by decide,
   single_inverted_screen 800 600 (by decide) (by decide) [⟨0, 0, 0⟩, ⟨0, 0, 0⟩, ⟨0, 0, 0⟩]
     0 0 ⟨[]⟩⟩

/-- C11: a single screen of positive width and height, rotation Right, target
index 0: the matrix is `[0, 1, 0, -1, 0, 1, 0, 0, 1]`. -/
theorem single_right_screen (W H : Int) (hW : 0 < W) (hH : 0 < H)
    (rest : List Screen) (s_width s_height : Int) (m : Matrix ℚ) :
    main_compute (⟨W, H, RR_Rotate_270⟩ :: rest) 1 0 s_width s_height m
      = Outcome.printed ⟨[0, 1, 0, -1, 0, 1, 0, 0, 1]⟩ := by
  have hWq : (W : ℚ) ≠ 0 := by exact_mod_cast hW.ne.symm
  have hHq : (H : ℚ) ≠ 0 := by exact_mod_cast hH.ne.symm
  simp [main_compute, screen_at, layout_loop, layout_from, layout_step,
      int_add_zero_left, effective_size,
    set_transformation_matrix, matrix_s4, matrix_set_unity, matrix_set, hW, hWq, hHq]

/-- Witness of `single_right_screen`: one 800x600 screen. -/
theorem single_right_screen_witness :
    (0 : Int) < 800 ∧ (0 : Int) < 600
    ∧ main_compute (⟨800, 600, RR_Rotate_270⟩ :: [⟨0, 0, 0⟩, ⟨0, 0, 0⟩, ⟨0, 0, 0⟩]) 1 0 0 0
          (⟨[]⟩ : Matrix ℚ)
        = Outcome.printed ⟨[0, 1, 0, -1, 0, 1, 0, 0, 1]⟩ :=
  ⟨by decide, by decide,
   single_right_screen 800 600 (by decide) (by decide) [⟨0, 0, 0⟩, ⟨0, 0, 0⟩, ⟨0, 0, 0⟩]
     0 0 ⟨[]⟩⟩

/-! ## Shape of the matrix -/

/-- C12: for every input of `set_transformation_matrix`, any rotation value
included, the result has `m[2][0] = 0`, `m[2][1] = 0`, `m[2][2] = 1` (entries
6, 7, 8): `matrix_set_unity` yields the bottom row `[0, 0, 1]` and `matrix_s4`
leaves the entries from index 6 on as they were.  Holds in every number
type `F`. -/
theorem set_transformation_matrix_bottom_row {F : Type} [Zero F] [One F] [Add F] [Neg F]
    [Div F] [IntCast F]
    (width height offset_x offset_y screen_width screen_height rotation : Int)
    (m m1 : Matrix F) (x02 x12 d1 d2 : F) (main_diag : Int) :
    ((set_transformation_matrix width height m offset_x offset_y screen_width screen_height
        rotation).m[6]? = some 0
      ∧ (set_transformation_matrix width height m offset_x offset_y screen_width screen_height
        rotation).m[7]? = some 0
      ∧ (set_transformation_matrix width height m offset_x offset_y screen_width screen_height
        rotation).m[8]? = some 1)
    ∧ (matrix_set_unity m).m.drop 6 = [0, 0, 1]
    ∧ (matrix_s4 m1 x02 x12 d1 d2 main_diag).m.drop 6 = m1.m.drop 6 := by
  refine ⟨?_, ?_, ?_⟩
  · unfold set_transformation_matrix
    simp only []
    split_ifs <;>
      simp [matrix_s4, matrix_set_unity, matrix_set, List.replicate]
  · simp [matrix_set_unity, matrix_set, List.replicate]
  · unfold matrix_s4
    simp only []
    split_ifs <;>
      simp [matrix_set, List.drop_set_of_lt]

/-- C13: for every canvas size, offset and effective size, the matrix built by
`set_transformation_matrix` has `m[0][1] = 0` and `m[1][0] = 0` (entries 1 and
3) for Normal and for Inverted, and `m[0][0] = 0` and `m[1][1] = 0` (entries 0
and 4) for Left and for Right.  Holds in every number type `F`: the zeros are
stored, not computed. -/
theorem set_transformation_matrix_zero_entries {F : Type} [Zero F] [One F] [Add F] [Neg F]
    [Div F] [IntCast F]
    (width height offset_x offset_y screen_width screen_height : Int) (m : Matrix F) :
    ((set_transformation_matrix width height m offset_x offset_y screen_width screen_height
        RR_Rotate_0).m[1]? = some 0
      ∧ (set_transformation_matrix width height m offset_x offset_y screen_width screen_height
        RR_Rotate_0).m[3]? = some 0)
    ∧ ((set_transformation_matrix width height m offset_x offset_y screen_width screen_height
        RR_Rotate_180).m[1]? = some 0
      ∧ (set_transformation_matrix width height m offset_x offset_y screen_width screen_height
        RR_Rotate_180).m[3]? = some 0)
    ∧ ((set_transformation_matrix width height m offset_x offset_y screen_width screen_height
        RR_Rotate_90).m[0]? = some 0
      ∧ (set_transformation_matrix width height m offset_x offset_y screen_width screen_height
        RR_Rotate_90).m[4]? = some 0)
    ∧ ((set_transformation_matrix width height m offset_x offset_y screen_width screen_height
        RR_Rotate_270).m[0]? = some 0
      ∧ (set_transformation_matrix width height m offset_x offset_y screen_width screen_height
        RR_Rotate_270).m[4]? = some 0) := by
  obtain ⟨t0, t90, t180, t270⟩ := set_transformation_matrix_entries width height offset_x
    offset_y screen_width screen_height m
  rw [t0, t90, t180, t270]
  simp

/-- C20: with exact arithmetic (`ℚ`), for each of the four rotations the 2×2
linear part of the matrix built by `set_transformation_matrix` has determinant
`w * h`, with `w = screen_width/width` and `h = screen_height/height`; so the
determinant is positive when `w > 0` and `h > 0`. -/
theorem set_transformation_matrix_det
    (width height offset_x offset_y screen_width screen_height rotation : Int) (m : Matrix ℚ)
    (hrot : valid_rotation rotation) :
    linear_det (set_transformation_matrix width height m offset_x offset_y screen_width
        screen_height rotation)
      = (screen_width : ℚ) / (width : ℚ) * ((screen_height : ℚ) / (height : ℚ))
    ∧ ((0 : ℚ) < (screen_width : ℚ) / (width : ℚ) →
        (0 : ℚ) < (screen_height : ℚ) / (height : ℚ) →
        0 < linear_det (set_transformation_matrix width height m offset_x offset_y screen_width
          screen_height rotation)) := by
  have hdet : linear_det (set_transformation_matrix width height m offset_x offset_y
      screen_width screen_height rotation)
      = (screen_width : ℚ) / (width : ℚ) * ((screen_height : ℚ) / (height : ℚ)) := by
    obtain ⟨t0, t90, t180, t270⟩ := @set_transformation_matrix_entries ℚ _ _ _ _ _ _ width
      height offset_x offset_y screen_width screen_height m
    rcases hrot with rfl | rfl | rfl | rfl
    · rw [t0]; simp [linear_det]
    · rw [t90]; simp [linear_det]
    · rw [t180]; simp [linear_det]
    · rw [t270]; simp [linear_det]
  refine ⟨hdet, fun hw hh => ?_⟩
  rw [hdet]
  exact mul_pos hw hh

/-- Witness of `set_transformation_matrix_det`: the right half of a 1600x600
canvas, rotation Left; `w = 1/2` and `h = 1` are positive. -/
theorem set_transformation_matrix_det_witness :
    valid_rotation RR_Rotate_90
    ∧ (0 : ℚ) < ((800 : Int) : ℚ) / ((1600 : Int) : ℚ)
    ∧ (0 : ℚ) < ((600 : Int) : ℚ) / ((600 : Int) : ℚ)
    ∧ linear_det (set_transformation_matrix 1600 600 (⟨[]⟩ : Matrix ℚ) 800 0 800 600
        RR_Rotate_90)
      = ((800 : Int) : ℚ) / ((1600 : Int) : ℚ) * (((600 : Int) : ℚ) / ((600 : Int) : ℚ))
    ∧ 0 < linear_det (set_transformation_matrix 1600 600 (⟨[]⟩ : Matrix ℚ) 800 0 800 600
        RR_Rotate_90) :=
  ⟨by decide, by norm_num, by norm_num,
   (set_transformation_matrix_det 1600 600 800 0 800 600 RR_Rotate_90 ⟨[]⟩ (by decide)).1,
   (set_transformation_matrix_det 1600 600 800 0 800 600 RR_Rotate_90 ⟨[]⟩ (by decide)).2
     (by norm_num) (by norm_num)⟩

/-! ## The target rectangle inside the canvas -/

/-- C19 (as amended): for every non-empty list of screens with positive width
and height and rotations among the four enumerators, and every target index,
the layout loop yields `cheight > 0`; and if the rotation-aware widths sum to
at most `INT_MAX` it yields `cwidth > 0`, so that the divisors `width` and
`height` of the four divisions in `set_transformation_matrix` are not zero. -/
theorem layout_loop_canvas_positive (l rest : List Screen) (ts_index : Int) (hne : l ≠ [])
    (hpos : ∀ s ∈ l, 0 < s.width ∧ 0 < s.height)
    (hrot : ∀ s ∈ l, valid_rotation s.rotation) :
    0 < (layout_loop (l ++ rest) l.length ts_index).cheight
    ∧ ((layout_loop (l ++ rest) l.length ts_index).cheight : ℚ) ≠ 0
    ∧ ((l.map canvas_width).sum ≤ INT_MAX →
        0 < (layout_loop (l ++ rest) l.length ts_index).cwidth
        ∧ ((layout_loop (l ++ rest) l.length ts_index).cwidth : ℚ) ≠ 0) := by
  have hh := layout_loop_cheight_pos l rest ts_index hne hpos hrot
  refine ⟨hh, ?_, fun hsum => ?_⟩
  · exact_mod_cast hh.ne.symm
  · have hw := layout_loop_cwidth_pos l rest ts_index hne hpos hrot hsum
    refine ⟨hw, ?_⟩
    exact_mod_cast hw.ne.symm

/-- Witness of `layout_loop_canvas_positive`: an 800x600 Normal screen followed
by a 1080x1920 Left screen. -/
theorem layout_loop_canvas_positive_witness :
    sample_screens ≠ []
    ∧ (∀ s ∈ sample_screens, 0 < s.width ∧ 0 < s.height)
    ∧ (∀ s ∈ sample_screens, valid_rotation s.rotation)
    ∧ (sample_screens.map canvas_width).sum ≤ INT_MAX
    ∧ 0 < (layout_loop (sample_screens ++ sample_rest) sample_screens.length 1).cheight
    ∧ ((layout_loop (sample_screens ++ sample_rest) sample_screens.length 1).cheight : ℚ) ≠ 0
    ∧ 0 < (layout_loop (sample_screens ++ sample_rest) sample_screens.length 1).cwidth
    ∧ ((layout_loop (sample_screens ++ sample_rest) sample_screens.length 1).cwidth : ℚ) ≠ 0 :=
  ⟨by decide, by decide, by decide, by decide,
   (layout_loop_canvas_positive sample_screens sample_rest 1 (by decide) (by decide)
      (by decide)).1,
   (layout_loop_canvas_positive sample_screens sample_rest 1 (by decide) (by decide)
      (by decide)).2.1,
   (layout_loop_canvas_positive sample_screens sample_rest 1 (by decide) (by decide)
      (by decide)).2.2 (by decide)⟩

/-- C19 as stated fails: for four Normal screens `1073741824x1` the widths sum
to `2^32` and the program's `cwidth` is `0`, the divisor of `x` and `w`. -/
theorem layout_loop_cwidth_zero :
    [(⟨1073741824, 1, RR_Rotate_0⟩ : Screen), ⟨1073741824, 1, RR_Rotate_0⟩,
        ⟨1073741824, 1, RR_Rotate_0⟩, ⟨1073741824, 1, RR_Rotate_0⟩] ≠ []
    ∧ (∀ s ∈ [(⟨1073741824, 1, RR_Rotate_0⟩ : Screen), ⟨1073741824, 1, RR_Rotate_0⟩,
          ⟨1073741824, 1, RR_Rotate_0⟩, ⟨1073741824, 1, RR_Rotate_0⟩],
        valid_rotation s.rotation ∧ 0 < s.width ∧ 0 < s.height
          ∧ is_int s.width ∧ is_int s.height)
    ∧ (layout_loop [⟨1073741824, 1, RR_Rotate_0⟩, ⟨1073741824, 1, RR_Rotate_0⟩,
        ⟨1073741824, 1, RR_Rotate_0⟩, ⟨1073741824, 1, RR_Rotate_0⟩] 4 0).cwidth = 0
    ∧ ¬ (0 < (layout_loop [⟨1073741824, 1, RR_Rotate_0⟩, ⟨1073741824, 1, RR_Rotate_0⟩,
        ⟨1073741824, 1, RR_Rotate_0⟩, ⟨1073741824, 1, RR_Rotate_0⟩] 4 0).cwidth) := by
  refine ⟨by decide, by decide, by decide, by decide⟩

/-- C18 (as amended): for every list of screens with positive width and height
and rotations among the four enumerators, and every target index `t` below the
screen count: the effective height is at most `cheight`, so
`h = s_height/cheight` lies in `[0, 1]`; and if every screen before the target
is Normal or Inverted and the rotation-aware widths of all screens sum to at
most `INT_MAX`, then `0 ≤ x_org`, `x_org + s_width ≤ cwidth`, and with
`x = x_org/cwidth`, `w = s_width/cwidth` (exact arithmetic) `0 ≤ x` and
`x + w ≤ 1`: the rectangle `[x, x+w] × [0, h]` lies inside the unit square. -/
theorem target_rectangle_inside (l rest : List Screen) (t : Nat) (ht : t < l.length)
    (s_width s_height : Int)
    (hpos : ∀ s ∈ l, 0 < s.width ∧ 0 < s.height)
    (hrot : ∀ s ∈ l, valid_rotation s.rotation) :
    screen_at (l ++ rest) (t : Int) = some l[t]
    ∧ (effective_size l[t] s_width s_height).2
        ≤ (layout_loop (l ++ rest) l.length (t : Int)).cheight
    ∧ (0 : ℚ) ≤ ((effective_size l[t] s_width s_height).2 : ℚ)
        / ((layout_loop (l ++ rest) l.length (t : Int)).cheight : ℚ)
    ∧ ((effective_size l[t] s_width s_height).2 : ℚ)
        / ((layout_loop (l ++ rest) l.length (t : Int)).cheight : ℚ) ≤ 1
    ∧ ((∀ s ∈ l.take t, s.rotation = RR_Rotate_0 ∨ s.rotation = RR_Rotate_180) →
        (l.map canvas_width).sum ≤ INT_MAX →
        0 ≤ (layout_loop (l ++ rest) l.length (t : Int)).x_org
        ∧ (layout_loop (l ++ rest) l.length (t : Int)).x_org
            + (effective_size l[t] s_width s_height).1
          ≤ (layout_loop (l ++ rest) l.length (t : Int)).cwidth
        ∧ (0 : ℚ) ≤ ((layout_loop (l ++ rest) l.length (t : Int)).x_org : ℚ)
            / ((layout_loop (l ++ rest) l.length (t : Int)).cwidth : ℚ)
        ∧ ((layout_loop (l ++ rest) l.length (t : Int)).x_org : ℚ)
            / ((layout_loop (l ++ rest) l.length (t : Int)).cwidth : ℚ)
          + ((effective_size l[t] s_width s_height).1 : ℚ)
            / ((layout_loop (l ++ rest) l.length (t : Int)).cwidth : ℚ) ≤ 1) := by
  have hne : l ≠ [] := by
    intro h
    rw [h] at ht
    simp at ht
  have hmem : l[t] ∈ l := List.getElem_mem ht
  have hch := layout_loop_cheight_pos l rest (t : Int) hne hpos hrot
  have hchq : (0 : ℚ) < ((layout_loop (l ++ rest) l.length (t : Int)).cheight : ℚ) := by
    exact_mod_cast hch
  rw [effective_size_valid l[t] s_width s_height (hrot _ hmem)]
  simp only []
  have hH : canvas_height l[t] ≤ (layout_loop (l ++ rest) l.length (t : Int)).cheight := by
    rw [layout_loop_append, layout_from_cheight (t : Int) l 0 ⟨0, 0, 0, 0⟩ hrot]
    exact foldl_max_ge_mem _ 0 _ (List.mem_map_of_mem canvas_height hmem)
  have hH0 : 0 < canvas_height l[t] := canvas_height_pos _ (hpos _ hmem)
  refine ⟨?_, hH, ?_, ?_, ?_⟩
  · simp [screen_at, List.getElem?_append_left ht, List.getElem?_eq_getElem ht]
  · exact div_nonneg (by exact_mod_cast hH0.le) hchq.le
  · rw [div_le_one hchq]
    exact_mod_cast hH
  · intro hpre hsum
    have hcw := layout_loop_cwidth_pos l rest (t : Int) hne hpos hrot hsum
    have hcwq : (0 : ℚ) < ((layout_loop (l ++ rest) l.length (t : Int)).cwidth : ℚ) := by
      exact_mod_cast hcw
    have hsplit := sum_map_split canvas_width l t ht
    have hdrop : 0 ≤ ((l.drop (t + 1)).map canvas_width).sum :=
      sum_map_nonneg _ _ (fun s hs => (canvas_width_pos s (hpos s (List.mem_of_mem_drop hs))).le)
    have htake : 0 ≤ ((l.take t).map canvas_width).sum :=
      sum_map_nonneg _ _ (fun s hs => (canvas_width_pos s (hpos s (List.mem_of_mem_take hs))).le)
    have hcongr : ((l.take t).map Screen.width).sum = ((l.take t).map canvas_width).sum := by
      refine sum_map_congr _ _ _ (fun s hs => ?_)
      rcases hpre s hs with h | h <;> simp [canvas_width, h]
    have hx : (layout_loop (l ++ rest) l.length (t : Int)).x_org
        = ((l.take t).map canvas_width).sum := by
      have hfit : ((l.take (t : Int).toNat).map Screen.width).sum ≤ INT_MAX := by
        have hct : 0 < canvas_width l[t] := canvas_width_pos _ (hpos _ hmem)
        have hsum2 : (l.map canvas_width).sum ≤ (2147483647 : Int) := hsum
        simp only [Int.toNat_ofNat]
        rw [hcongr]
        show _ ≤ (2147483647 : Int)
        linarith
      rw [layout_loop_x_org_eq l rest (t : Int) hpos hrot hfit]
      simp only [Int.toNat_ofNat]
      exact hcongr
    have hw := layout_loop_cwidth_eq l rest (t : Int) hpos hrot hsum
    have h0 : 0 ≤ (layout_loop (l ++ rest) l.length (t : Int)).x_org := by
      rw [hx]; exact htake
    have h1 : (layout_loop (l ++ rest) l.length (t : Int)).x_org + canvas_width l[t]
        ≤ (layout_loop (l ++ rest) l.length (t : Int)).cwidth := by
      rw [hx, hw]; linarith
    refine ⟨h0, h1, ?_, ?_⟩
    · exact div_nonneg (by exact_mod_cast h0) hcwq.le
    · rw [← add_div, div_le_one hcwq]
      exact_mod_cast h1

/-- Witness of `target_rectangle_inside`: `sample_screens` with target index 1,
the Left screen, which has a Normal screen before it. -/
theorem target_rectangle_inside_witness :
    1 < sample_screens.length
    ∧ (∀ s ∈ sample_screens, 0 < s.width ∧ 0 < s.height)
    ∧ (∀ s ∈ sample_screens, valid_rotation s.rotation)
    ∧ (∀ s ∈ sample_screens.take 1, s.rotation = RR_Rotate_0 ∨ s.rotation = RR_Rotate_180)
    ∧ (sample_screens.map canvas_width).sum ≤ INT_MAX
    ∧ (effective_size sample_screens[1] 0 0).2
        ≤ (layout_loop (sample_screens ++ sample_rest) sample_screens.length (1 : Int)).cheight
    ∧ (layout_loop (sample_screens ++ sample_rest) sample_screens.length (1 : Int)).x_org
          + (effective_size sample_screens[1] 0 0).1
        ≤ (layout_loop (sample_screens ++ sample_rest) sample_screens.length (1 : Int)).cwidth
    ∧ ((layout_loop (sample_screens ++ sample_rest) sample_screens.length (1 : Int)).x_org : ℚ)
          / ((layout_loop (sample_screens ++ sample_rest) sample_screens.length
              (1 : Int)).cwidth : ℚ)
        + ((effective_size sample_screens[1] 0 0).1 : ℚ)
          / ((layout_loop (sample_screens ++ sample_rest) sample_screens.length
              (1 : Int)).cwidth : ℚ) ≤ 1 :=
  ⟨by decide, by decide, by decide, by decide, by decide,
   (target_rectangle_inside sample_screens sample_rest 1 (by decide) 0 0 (by decide)
      (by decide)).2.1,
   ((target_rectangle_inside sample_screens sample_rest 1 (by decide) 0 0 (by decide)
      (by decide)).2.2.2.2 (by decide) (by decide)).2.1,
   ((target_rectangle_inside sample_screens sample_rest 1 (by decide) 0 0 (by decide)
      (by decide)).2.2.2.2 (by decide) (by decide)).2.2.2⟩

/-- C18 as stated fails: for the Normal screens `2147483647x1` and `1x1` with
target index 1 every condition of the claim holds, yet the program has
`x_org = 2147483647`, effective width `1` and `cwidth = -2147483648`: neither
`x_org + s_width ≤ cwidth` nor `0 ≤ x_org/cwidth` holds. -/
theorem target_rectangle_overflow :
    (∀ s ∈ [(⟨2147483647, 1, RR_Rotate_0⟩ : Screen), ⟨1, 1, RR_Rotate_0⟩],
        valid_rotation s.rotation ∧ 0 < s.width ∧ 0 < s.height
          ∧ is_int s.width ∧ is_int s.height)
    ∧ (∀ s ∈ [(⟨2147483647, 1, RR_Rotate_0⟩ : Screen), ⟨1, 1, RR_Rotate_0⟩].take 1,
        s.rotation = RR_Rotate_0 ∨ s.rotation = RR_Rotate_180)
    ∧ (layout_loop [⟨2147483647, 1, RR_Rotate_0⟩, ⟨1, 1, RR_Rotate_0⟩, ⟨0, 0, 0⟩, ⟨0, 0, 0⟩]
        2 1).x_org = 2147483647
    ∧ (layout_loop [⟨2147483647, 1, RR_Rotate_0⟩, ⟨1, 1, RR_Rotate_0⟩, ⟨0, 0, 0⟩, ⟨0, 0, 0⟩]
        2 1).cwidth = -2147483648
    ∧ effective_size ⟨1, 1, RR_Rotate_0⟩ 0 0 = (1, 1)
    ∧ ¬ ((layout_loop [⟨2147483647, 1, RR_Rotate_0⟩, ⟨1, 1, RR_Rotate_0⟩, ⟨0, 0, 0⟩,
          ⟨0, 0, 0⟩] 2 1).x_org + (effective_size ⟨1, 1, RR_Rotate_0⟩ 0 0).1
        ≤ (layout_loop [⟨2147483647, 1, RR_Rotate_0⟩, ⟨1, 1, RR_Rotate_0⟩, ⟨0, 0, 0⟩,
          ⟨0, 0, 0⟩] 2 1).cwidth)
    ∧ ¬ ((0 : ℚ) ≤ ((2147483647 : Int) : ℚ) / ((-2147483648 : Int) : ℚ)) := by
  refine ⟨by decide, by decide, by decide, by decide, by decide, by decide, by norm_num⟩

/-! ## The option loop -/

theorem option_step_ok (st st1 : Locals) (opt : Opt)
    (h : option_step st opt = Except.ok st1)
    (hnr : st.nr_screens ≤ MAX_SCREENS) (hlen : st.screens.length = MAX_SCREENS) :
    st1.nr_screens = st.nr_screens + count_r [opt]
    ∧ st1.nr_screens ≤ MAX_SCREENS
    ∧ st1.screens.length = MAX_SCREENS
    ∧ st1.ts_index_set = st.ts_index_set := by
  have hnr4 : st.nr_screens ≤ 4 := hnr
  have hlen4 : st.screens.length = 4 := hlen
  cases opt with
  | h => simp [option_step] at h
  | i optarg =>
    simp only [option_step] at h
    split_ifs at h
    cases h
    simp [count_r, hnr, hlen]
  | r optarg =>
    simp only [option_step] at h
    by_cases h1 : MAX_SCREENS ≤ st.nr_screens
    · rw [if_pos h1] at h
      cases h
    · have hlt : st.nr_screens < st.screens.length := by omega
      rw [if_neg h1, List.getElem?_eq_getElem hlt] at h
      simp only [] at h
      split_ifs at h
      cases h
      simp only [count_r, List.length_set, hlen]
      refine ⟨trivial, ?_, trivial, trivial⟩
      show st.nr_screens + 1 ≤ 4
      omega
  | R optarg =>
    simp only [option_step] at h
    by_cases h1 : (st.nr_screens : Int) - 1 < 0
    · rw [if_pos h1] at h
      cases h
    · by_cases h2 : (MAX_SCREENS : Int) ≤ (st.nr_screens : Int) - 1
      · rw [if_neg h1, if_pos h2] at h
        cases h
      · have hlt : ((st.nr_screens : Int) - 1).toNat < st.screens.length := by omega
        rw [if_neg h1, if_neg h2, List.getElem?_eq_getElem hlt] at h
        simp only [] at h
        split_ifs at h
        cases h
        simp [count_r, hnr, hlen]
  | other => simp [option_step] at h

theorem option_step_in_bounds (st : Locals) (opt : Opt)
    (hnr : st.nr_screens ≤ MAX_SCREENS) (hlen : st.screens.length = MAX_SCREENS) :
    option_step st opt ≠ Except.error Exit.out_of_bounds := by
  have hnr4 : st.nr_screens ≤ 4 := hnr
  have hlen4 : st.screens.length = 4 := hlen
  cases opt with
  | h => simp [option_step]
  | i optarg =>
    simp only [option_step]
    split_ifs <;> simp
  | r optarg =>
    simp only [option_step]
    by_cases h1 : MAX_SCREENS ≤ st.nr_screens
    · rw [if_pos h1]
      simp
    · have hlt : st.nr_screens < st.screens.length := by omega
      rw [if_neg h1, List.getElem?_eq_getElem hlt]
      simp only []
      split_ifs <;> simp
  | R optarg =>
    simp only [option_step]
    by_cases h1 : (st.nr_screens : Int) - 1 < 0
    · rw [if_pos h1]
      simp
    · by_cases h2 : (MAX_SCREENS : Int) ≤ (st.nr_screens : Int) - 1
      · rw [if_neg h1, if_pos h2]
        simp
      · have hlt : ((st.nr_screens : Int) - 1).toNat < st.screens.length := by omega
        rw [if_neg h1, if_neg h2, List.getElem?_eq_getElem hlt]
        simp only []
        split_ifs <;> simp
  | other => simp [option_step]

theorem option_loop_ok (opts : List Opt) :
    ∀ (st st1 : Locals), option_loop opts st = Except.ok st1 →
      st.nr_screens ≤ MAX_SCREENS → st.screens.length = MAX_SCREENS →
      st1.nr_screens = st.nr_screens + count_r opts
      ∧ st1.nr_screens ≤ MAX_SCREENS
      ∧ st1.screens.length = MAX_SCREENS
      ∧ st1.ts_index_set = st.ts_index_set := by
  induction opts with
  | nil =>
    intro st st1 h hnr hlen
    simp only [option_loop] at h
    cases h
    simp [count_r, hnr, hlen]
  | cons opt rest ih =>
    intro st st1 h hnr hlen
    simp only [option_loop] at h
    split at h
    · cases h
    · rename_i st2 hstep
      obtain ⟨h1, h2, h3, h4⟩ := option_step_ok st st2 opt hstep hnr hlen
      obtain ⟨k1, k2, k3, k4⟩ := ih st2 st1 h h2 h3
      refine ⟨?_, k2, k3, by rw [k4, h4]⟩
      rw [k1, h1]
      cases opt <;> simp only [count_r] <;> omega

theorem option_loop_in_bounds (opts : List Opt) :
    ∀ (st : Locals), st.nr_screens ≤ MAX_SCREENS → st.screens.length = MAX_SCREENS →
      option_loop opts st ≠ Except.error Exit.out_of_bounds := by
  induction opts with
  | nil => intro st _ _; simp [option_loop]
  | cons opt rest ih =>
    intro st hnr hlen
    simp only [option_loop]
    split
    · rename_i e hstep
      intro h
      cases h
      exact option_step_in_bounds st opt hnr hlen hstep
    · rename_i st2 hstep
      obtain ⟨_, h2, h3, _⟩ := option_step_ok st st2 opt hstep hnr hlen
      exact ih st2 h2 h3

theorem option_loop_append (pre post : List Opt) :
    ∀ (st : Locals), option_loop (pre ++ post) st =
      match option_loop pre st with
      | Except.error e => Except.error e
      | Except.ok st1 => option_loop post st1 := by
  induction pre with
  | nil => intro st; simp [option_loop]
  | cons opt rest ih =>
    intro st
    simp only [List.cons_append, option_loop]
    split
    · rfl
    · exact ih _

theorem option_step_ts_index_set (st st1 : Locals) (opt : Opt)
    (h : option_step st opt = Except.ok st1) : st1.ts_index_set = st.ts_index_set := by
  cases opt <;> simp only [option_step] at h <;> (repeat' split at h) <;>
    first
    | (cases h; rfl)
    | cases h

theorem invalid_r_message_ne (optarg : String) :
    "Invalid -r argument: " ++ optarg ++ "\n" ≠ "Duplicate -i option\n" := by
  intro h
  have h2 := congrArg String.data h
  simp [String.data_append] at h2

theorem invalid_R_message_ne (optarg : String) :
    "Invalid rotation specification: " ++ optarg ++ "\n" ≠ "Duplicate -i option\n" := by
  intro h
  have h2 := congrArg String.data h
  simp [String.data_append] at h2

theorem option_step_no_duplicate (st : Locals) (opt : Opt) (h0 : st.ts_index_set = 0) :
    option_step st opt ≠ Except.error (Exit.failure "Duplicate -i option\n") := by
  have hr := invalid_r_message_ne
  have hR := invalid_R_message_ne
  cases opt <;> simp only [option_step] <;> (repeat' split) <;>
    simp_all

theorem option_loop_no_duplicate (opts : List Opt) :
    ∀ st : Locals, st.ts_index_set = 0 →
      option_loop opts st ≠ Except.error (Exit.failure "Duplicate -i option\n") := by
  induction opts with
  | nil => intro st _; simp [option_loop]
  | cons opt rest ih =>
    intro st h0
    simp only [option_loop]
    split
    · rename_i e hstep
      intro h
      cases h
      exact option_step_no_duplicate st opt h0 hstep
    · rename_i st2 hstep
      exact ih st2 ((option_step_ts_index_set st st2 opt hstep).trans h0)

/-- C14, the code at the failing input: options `-r 800x600 -r 800x600 -i 0
-i 1`.  The second `-i` is taken like the first: the loop ends with
`ts_index = 1` and `main` prints the matrix of screen 1 and returns `0`.  The
flag `ts_index_set` is never written, so no option sequence at all reaches the
exit "Duplicate -i option". -/
theorem main_duplicate_index :
    option_loop [Opt.r "800x600", Opt.r "800x600", Opt.i "0", Opt.i "1"]
        ⟨0, 0, 0, [⟨0, 0, 0⟩, ⟨0, 0, 0⟩, ⟨0, 0, 0⟩, ⟨0, 0, 0⟩]⟩
      = Except.ok ⟨0, 1, 2, [⟨800, 600, 0⟩, ⟨800, 600, 0⟩, ⟨0, 0, 0⟩, ⟨0, 0, 0⟩]⟩
    ∧ (main [Opt.r "800x600", Opt.r "800x600", Opt.i "0", Opt.i "1"]
          [⟨0, 0, 0⟩, ⟨0, 0, 0⟩, ⟨0, 0, 0⟩, ⟨0, 0, 0⟩] 0 0 (⟨[]⟩ : Matrix ℚ))
        = Outcome.printed ⟨[1 / 2, 0, 1 / 2, 0, 1, 0, 0, 0, 1]⟩
    ∧ (∀ (opts : List Opt) (screens : List Screen),
        option_loop opts ⟨0, 0, 0, screens⟩
          ≠ Except.error (Exit.failure "Duplicate -i option\n")) := by
  have hloop : option_loop [Opt.r "800x600", Opt.r "800x600", Opt.i "0", Opt.i "1"]
        ⟨0, 0, 0, [⟨0, 0, 0⟩, ⟨0, 0, 0⟩, ⟨0, 0, 0⟩, ⟨0, 0, 0⟩]⟩
      = Except.ok ⟨0, 1, 2, [⟨800, 600, 0⟩, ⟨800, 600, 0⟩, ⟨0, 0, 0⟩, ⟨0, 0, 0⟩]⟩ := rfl
  refine ⟨hloop, ?_, fun opts screens => option_loop_no_duplicate opts _ rfl⟩
  have h1600 : int_add 800 800 = 1600 := by decide
  unfold main
  rw [hloop]
  simp [main_compute, screen_at, layout_loop, layout_from, layout_step, int_add_zero_left,
    h1600, effective_size, set_transformation_matrix, matrix_s4, matrix_set_unity, matrix_set]
  norm_num

/-- C15: started with an array `screens` of `MAX_SCREENS = 4` slots, the option
loop never writes outside the array; when it runs to its end, `nr_screens` is
the number of `-r` options, it is at most 4, and the array still has 4 slots;
a `-r` option reached after four `-r` options leaves `main` with status 1
("Too many -r options"), whatever its argument and whatever follows; and four
`-r` options whose arguments `sscanf` converts are all accepted. -/
theorem option_loop_max_screens (screens : List Screen)
    (hlen : screens.length = MAX_SCREENS) :
    (∀ opts : List Opt, option_loop opts ⟨0, 0, 0, screens⟩ ≠ Except.error Exit.out_of_bounds)
    ∧ (∀ (opts : List Opt) (st : Locals), option_loop opts ⟨0, 0, 0, screens⟩ = Except.ok st →
        st.nr_screens = count_r opts ∧ st.nr_screens ≤ MAX_SCREENS
          ∧ st.screens.length = MAX_SCREENS)
    ∧ (∀ (pre : List Opt) (st : Locals) (optarg : String) (post : List Opt),
        option_loop pre ⟨0, 0, 0, screens⟩ = Except.ok st → count_r pre = MAX_SCREENS →
        option_loop (pre ++ Opt.r optarg :: post) ⟨0, 0, 0, screens⟩
          = Except.error (Exit.failure "Too many -r options\n"))
    ∧ (∀ a b c d : String, (sscanf_dxd a).ret = 2 → (sscanf_dxd b).ret = 2 →
        (sscanf_dxd c).ret = 2 → (sscanf_dxd d).ret = 2 →
        ∃ st : Locals,
          option_loop [Opt.r a, Opt.r b, Opt.r c, Opt.r d] ⟨0, 0, 0, screens⟩ = Except.ok st
            ∧ st.nr_screens = MAX_SCREENS) := by
  have hkeep : ∀ (opts : List Opt) (st : Locals),
      option_loop opts ⟨0, 0, 0, screens⟩ = Except.ok st →
      st.nr_screens = count_r opts ∧ st.nr_screens ≤ MAX_SCREENS
        ∧ st.screens.length = MAX_SCREENS := by
    intro opts st h
    obtain ⟨h1, h2, h3, _⟩ := option_loop_ok opts ⟨0, 0, 0, screens⟩ st h (by simp) hlen
    exact ⟨by simpa using h1, h2, h3⟩
  refine ⟨fun opts => option_loop_in_bounds opts _ (by simp) hlen, hkeep, ?_, ?_⟩
  · intro pre st optarg post hpre hcount
    have hnr : st.nr_screens = MAX_SCREENS := (hkeep pre st hpre).1.trans hcount
    rw [option_loop_append, hpre]
    simp only [option_loop, option_step]
    rw [if_pos (le_of_eq hnr.symm)]
  · intro a b c d ha hb hc hd
    obtain ⟨s0, s1, s2, s3, rfl⟩ : ∃ s0 s1 s2 s3 : Screen, screens = [s0, s1, s2, s3] := by
      match screens, hlen with
      | [s0, s1, s2, s3], _ => exact ⟨s0, s1, s2, s3, rfl⟩
    simp [option_loop, option_step, ha, hb, hc, hd, MAX_SCREENS]

/-- Witness of `option_loop_max_screens`: four `-r 1x1` are accepted, a fifth
`-r` is refused. -/
theorem option_loop_max_screens_witness :
    ([⟨0, 0, 0⟩, ⟨0, 0, 0⟩, ⟨0, 0, 0⟩, ⟨0, 0, 0⟩] : List Screen).length = MAX_SCREENS
    ∧ option_loop [Opt.r "1x1", Opt.r "1x1", Opt.r "1x1", Opt.r "1x1"]
          ⟨0, 0, 0, [⟨0, 0, 0⟩, ⟨0, 0, 0⟩, ⟨0, 0, 0⟩, ⟨0, 0, 0⟩]⟩
        = Except.ok ⟨0, 0, 4, [⟨1, 1, 0⟩, ⟨1, 1, 0⟩, ⟨1, 1, 0⟩, ⟨1, 1, 0⟩]⟩
    ∧ count_r [Opt.r "1x1", Opt.r "1x1", Opt.r "1x1", Opt.r "1x1"] = MAX_SCREENS
    ∧ option_loop ([Opt.r "1x1", Opt.r "1x1", Opt.r "1x1", Opt.r "1x1"]
            ++ Opt.r "1x1" :: [Opt.i "0"])
          ⟨0, 0, 0, [⟨0, 0, 0⟩, ⟨0, 0, 0⟩, ⟨0, 0, 0⟩, ⟨0, 0, 0⟩]⟩
        = Except.error (Exit.failure "Too many -r options\n") :=
  ⟨by decide, rfl, by decide,
   (option_loop_max_screens [⟨0, 0, 0⟩, ⟨0, 0, 0⟩, ⟨0, 0, 0⟩, ⟨0, 0, 0⟩] (by decide)).2.2.1
     [Opt.r "1x1", Opt.r "1x1", Opt.r "1x1", Opt.r "1x1"]
     ⟨0, 0, 4, [⟨1, 1, 0⟩, ⟨1, 1, 0⟩, ⟨1, 1, 0⟩, ⟨1, 1, 0⟩]⟩ "1x1" [Opt.i "0"] rfl (by decide)⟩

/-- C16: `rotation_index` compares its argument with the four names without
regard to the case of the letters `A`..`Z`, and returns `RR_Rotate_0 = 0` for
"normal", `RR_Rotate_90 = 1` for "left", `RR_Rotate_180 = 2` for "inverted",
`RR_Rotate_270 = 3` for "right" and `-1` for every other string; when it
returns `-1`, the option `-R` leaves `main` with status 1. -/
theorem rotation_index_names (rot_name : String) (st : Locals)
    (hlen : st.screens.length = MAX_SCREENS) :
    rotation_index rot_name =
      (if rot_name.toList.map Char.toLower = "normal".toList then RR_Rotate_0
       else if rot_name.toList.map Char.toLower = "left".toList then RR_Rotate_90
       else if rot_name.toList.map Char.toLower = "inverted".toList then RR_Rotate_180
       else if rot_name.toList.map Char.toLower = "right".toList then RR_Rotate_270
       else -1)
    ∧ (RR_Rotate_0 = 0 ∧ RR_Rotate_90 = 1 ∧ RR_Rotate_180 = 2 ∧ RR_Rotate_270 = 3)
    ∧ (rotation_index rot_name = -1 →
        ∃ message : String,
          option_step st (Opt.R rot_name) = Except.error (Exit.failure message)) := by
  refine ⟨?_, ⟨rfl, rfl, rfl, rfl⟩, ?_⟩
  · have e1 : "normal".toList.map Char.toLower = "normal".toList := by decide
    have e2 : "left".toList.map Char.toLower = "left".toList := by decide
    have e3 : "inverted".toList.map Char.toLower = "inverted".toList := by decide
    have e4 : "right".toList.map Char.toLower = "right".toList := by decide
    simp only [rotation_index, rotations, MAX_ROTATIONS, List.take, rotation_index_from,
      strcasecmp, e1, e2, e3, e4]
    split_ifs <;> simp_all
  · intro hneg
    have hlen4 : st.screens.length = 4 := hlen
    simp only [option_step]
    by_cases h1 : (st.nr_screens : Int) - 1 < 0
    · rw [if_pos h1]
      exact ⟨_, rfl⟩
    · by_cases h2 : (MAX_SCREENS : Int) ≤ (st.nr_screens : Int) - 1
      · rw [if_neg h1, if_pos h2]
        exact ⟨_, rfl⟩
      · have hlt : ((st.nr_screens : Int) - 1).toNat < st.screens.length := by omega
        rw [if_neg h1, if_neg h2, List.getElem?_eq_getElem hlt]
        simp only []
        rw [if_pos hneg]
        exact ⟨_, rfl⟩

/-- Witness of `rotation_index_names`: the name "diagonal" after one `-r`. -/
theorem rotation_index_names_witness :
    (⟨0, 0, 1, [⟨800, 600, 0⟩, ⟨0, 0, 0⟩, ⟨0, 0, 0⟩, ⟨0, 0, 0⟩]⟩ : Locals).screens.length
        = MAX_SCREENS
    ∧ rotation_index "diagonal" = -1
    ∧ rotation_index "LeFt" = RR_Rotate_90
    ∧ ∃ message : String,
        option_step ⟨0, 0, 1, [⟨800, 600, 0⟩, ⟨0, 0, 0⟩, ⟨0, 0, 0⟩, ⟨0, 0, 0⟩]⟩
          (Opt.R "diagonal") = Except.error (Exit.failure message) :=
  ⟨by decide, by decide, by decide,
   (rotation_index_names "diagonal"
      ⟨0, 0, 1, [⟨800, 600, 0⟩, ⟨0, 0, 0⟩, ⟨0, 0, 0⟩, ⟨0, 0, 0⟩]⟩ (by decide)).2.2 (by decide)⟩

/-- C17 as stated fails: the tokens `0x0` and `5x-3` are accepted by `-r`, and
the stored screens have a width or a height that is not positive. -/
theorem option_loop_accepts_nonpositive :
    option_loop [Opt.r "0x0", Opt.r "5x-3"]
        ⟨0, 0, 0, [⟨1, 1, 0⟩, ⟨1, 1, 0⟩, ⟨1, 1, 0⟩, ⟨1, 1, 0⟩]⟩
      = Except.ok ⟨0, 0, 2, [⟨0, 0, 0⟩, ⟨5, -3, 0⟩, ⟨1, 1, 0⟩, ⟨1, 1, 0⟩]⟩
    ∧ ¬ (∀ s ∈ ([⟨0, 0, 0⟩, ⟨5, -3, 0⟩, ⟨1, 1, 0⟩, ⟨1, 1, 0⟩] : List Screen).take 2,
          0 < s.width ∧ 0 < s.height) := by
  refine ⟨rfl, ?_⟩
  decide

/-- C17 (as amended): a `-r` option whose argument `sscanf` with format `%dx%d`
does not convert to two integers leaves `main` with status 1 (with room left
in the array, after the message "Invalid -r argument"); with room left in the
array, an argument that does convert is accepted: the two converted integers,
of any sign, are stored as `width` and `height` with rotation `0`, and
`nr_screens` grows by one. -/
theorem option_step_resolution (st : Locals) (optarg : String)
    (hlen : st.screens.length = MAX_SCREENS) :
    ((sscanf_dxd optarg).ret ≠ 2 →
      ∃ message : String, option_step st (Opt.r optarg) = Except.error (Exit.failure message))
    ∧ (st.nr_screens < MAX_SCREENS → (sscanf_dxd optarg).ret ≠ 2 →
        option_step st (Opt.r optarg)
          = Except.error (Exit.failure ("Invalid -r argument: " ++ optarg ++ "\n")))
    ∧ (st.nr_screens < MAX_SCREENS → (sscanf_dxd optarg).ret = 2 →
        ∃ width height : Int,
          sscanf_dxd optarg = ⟨2, some width, some height⟩
          ∧ option_step st (Opt.r optarg)
            = Except.ok { st with
                screens := st.screens.set st.nr_screens ⟨width, height, 0⟩
                nr_screens := st.nr_screens + 1 }) := by
  have hlen4 : st.screens.length = 4 := hlen
  have hstored : (sscanf_dxd optarg).ret = 2 →
      ∃ width height : Int, sscanf_dxd optarg = ⟨2, some width, some height⟩ := by
    unfold sscanf_dxd
    intro h
    (repeat' split at h) <;> simp_all
  have hbad : st.nr_screens < MAX_SCREENS → (sscanf_dxd optarg).ret ≠ 2 →
      option_step st (Opt.r optarg)
        = Except.error (Exit.failure ("Invalid -r argument: " ++ optarg ++ "\n")) := by
    intro hnr h
    have hnr4 : st.nr_screens < 4 := hnr
    have h1 : ¬ MAX_SCREENS ≤ st.nr_screens := not_le.mpr hnr
    have hlt : st.nr_screens < st.screens.length := by omega
    simp only [option_step]
    rw [if_neg h1, List.getElem?_eq_getElem hlt]
    simp only []
    rw [if_pos h]
  refine ⟨fun h => ?_, hbad, fun hnr h => ?_⟩
  · by_cases h1 : MAX_SCREENS ≤ st.nr_screens
    · refine ⟨"Too many -r options\n", ?_⟩
      simp only [option_step]
      rw [if_pos h1]
    · exact ⟨_, hbad (not_le.mp h1) h⟩
  · have hnr4 : st.nr_screens < 4 := hnr
    have h1 : ¬ MAX_SCREENS ≤ st.nr_screens := not_le.mpr hnr
    have hlt : st.nr_screens < st.screens.length := by omega
    obtain ⟨width, height, hsc⟩ := hstored h
    refine ⟨width, height, hsc, ?_⟩
    simp only [option_step]
    rw [if_neg h1, List.getElem?_eq_getElem hlt]
    simp only []
    rw [if_neg (not_not.mpr h), hsc]
    rfl

/-- Witness of `option_step_resolution`: the token `800x600` is stored, the
token `800*600` is refused. -/
theorem option_step_resolution_witness :
    ([⟨1, 1, 0⟩, ⟨1, 1, 0⟩, ⟨1, 1, 0⟩, ⟨1, 1, 0⟩] : List Screen).length = MAX_SCREENS
    ∧ (0 : Nat) < MAX_SCREENS
    ∧ (sscanf_dxd "800*600").ret ≠ 2
    ∧ (sscanf_dxd "800x600").ret = 2
    ∧ option_step ⟨0, 0, 0, [⟨1, 1, 0⟩, ⟨1, 1, 0⟩, ⟨1, 1, 0⟩, ⟨1, 1, 0⟩]⟩ (Opt.r "800*600")
        = Except.error (Exit.failure ("Invalid -r argument: " ++ "800*600" ++ "\n"))
    ∧ ∃ width height : Int,
        sscanf_dxd "800x600" = ⟨2, some width, some height⟩
        ∧ option_step ⟨0, 0, 0, [⟨1, 1, 0⟩, ⟨1, 1, 0⟩, ⟨1, 1, 0⟩, ⟨1, 1, 0⟩]⟩ (Opt.r "800x600")
          = Except.ok ⟨0, 0, 0 + 1,
              ([⟨1, 1, 0⟩, ⟨1, 1, 0⟩, ⟨1, 1, 0⟩, ⟨1, 1, 0⟩] : List Screen).set 0
                ⟨width, height, 0⟩⟩ :=
  ⟨by decide, by decide, by decide, by decide,
   (option_step_resolution ⟨0, 0, 0, [⟨1, 1, 0⟩, ⟨1, 1, 0⟩, ⟨1, 1, 0⟩, ⟨1, 1, 0⟩]⟩ "800*600"
      (by decide)).2.1 (by decide) (by decide),
   (option_step_resolution ⟨0, 0, 0, [⟨1, 1, 0⟩, ⟨1, 1, 0⟩, ⟨1, 1, 0⟩, ⟨1, 1, 0⟩]⟩ "800x600"
      (by decide)).2.2 (by decide) (by decide)⟩

end Transform
